import Mathlib

/-!
# RotalaLink ESP32 firmware: provisioning and telemetry protocol

A shallow embedding of `src/esp32_firmware_example.cpp`.

* An Arduino `String` is modelled by its character sequence (`List Char`). Embedded
  NUL characters, at which the C routines behind `indexOf` would stop, are not
  modelled.
* C `int` values are modelled by `Int`.  Every index handled by the firmware is a
  position inside a `String` held in the RAM of the device, far below `2^31`, so no
  wrap-around is modelled.  Every value passed to an `unsigned int` parameter is
  non-negative at its call site and is converted with `Int.toNat`.
* The global variables of the sketch are the fields of `Globals`; the functions of
  the sketch, which are `void` and mutate the globals, take and return the state.
* The external collaborators (radio, key/value store, sensors, HTTP client, the two
  serial channels) are modelled by their observable interface: what the firmware
  reads from them is supplied by `Env`, what it writes to them is logged in `Sys`.
-/

namespace RotalaLink

/-- Character sequence of an Arduino `String`. -/
abbrev Str := List Char

/-! ## Arduino `String` operations used by the sketch -/

/-- The `strchr` search: offset of the first `ch` in `s`, if there is one. -/
def strchr (ch : Char) : Str → Option Nat
  | [] => none
  | c :: cs => if c = ch then some 0 else (strchr ch cs).map (· + 1)

/-- `String::indexOf(ch, fromIndex)`: `-1` when `fromIndex >= len` or when `ch` does
not occur at or after `fromIndex`, else the position of its first occurrence there. -/
def indexOf (s : Str) (ch : Char) (fromIndex : Nat) : Int :=
  if fromIndex ≥ s.length then -1
  else
    match strchr ch (s.drop fromIndex) with
    | some k => ((fromIndex + k : Nat) : Int)
    | none => -1

/-- `String::substring(left, right)`: the bounds are swapped when `left > right`, the
result is empty when `left >= len`, and `right` is clamped to `len`. -/
def substring (s : Str) (left right : Nat) : Str :=
  let l := if left > right then right else left
  let r := if left > right then left else right
  if l ≥ s.length then []
  else
    let r := if r > s.length then s.length else r
    (s.drop l).take (r - l)

/-- `String::substring(beginIndex)`, which is `substring(beginIndex, len)`. -/
def substringFrom (s : Str) (beginIndex : Nat) : Str :=
  substring s beginIndex s.length

/-- `String::startsWith(prefix)`. -/
def startsWith (s p : Str) : Bool :=
  p.isPrefixOf s

/-- The `isspace` test of the C locale. -/
def isSpace (c : Char) : Bool :=
  c = ' ' || c = '\t' || c = '\n' || c = Char.ofNat 11 || c = Char.ofNat 12 || c = '\r'

/-- `String::trim()`: removes leading and trailing white space. -/
def trim (s : Str) : Str :=
  ((s.dropWhile isSpace).reverse.dropWhile isSpace).reverse

/-- `String(int)`: decimal rendering of an `int`. -/
def intToString (n : Int) : Str :=
  if n < 0 then '-' :: Nat.toDigits 10 n.natAbs else Nat.toDigits 10 n.toNat

/-! ## External collaborators -/

/-- Contents of the `"credentials"` namespace of the `Preferences` key/value store. -/
abbrev Store := List (Str × Str)

/-- `preferences.putString(key, value)`: the entry for `key` is replaced. -/
def putString (st : Store) (key value : Str) : Store :=
  (key, value) :: st.filter (fun e => e.1 != key)

/-- `preferences.getString(key, defaultValue)`. -/
def getString (st : Store) (key defaultValue : Str) : Str :=
  match st.lookup key with
  | some v => v
  | none => defaultValue

/-- The three analog inputs `tempPin`, `phPin`, `tdsPin` (`A0`, `A1`, `A2`). -/
inductive Pin
  | A0
  | A1
  | A2
deriving DecidableEq, Repr

/-- A `float` reading, kept symbolic as the conversion of the sketch applied to the raw
ADC count: `20.0 + raw * 0.1`, `7.0 + (raw - 512) * 0.01` and `raw * 0.5`. -/
inductive Reading
  | temperature (rawValue : Int)
  | ph (rawValue : Int)
  | tds (rawValue : Int)
deriving DecidableEq, Repr

/-- A value stored in the JSON document. -/
inductive JsonValue
  | str (s : Str)
  | num (r : Reading)
  | time (t : Int)
deriving DecidableEq, Repr

/-- A JSON object under construction: its members in insertion order. -/
abbrev JsonDoc := List (Str × JsonValue)

/-- The assignment `doc[key] = value`: replaces the member `key` or appends it. The
memory pool of the document (`DynamicJsonDocument doc(1024)`) is not modelled: every
assignment is taken to succeed. -/
def jsonSet : JsonDoc → Str → JsonValue → JsonDoc
  | [], key, v => [(key, v)]
  | (k, w) :: rest, key, v =>
    if k = key then (k, v) :: rest else (k, w) :: jsonSet rest key v

/-- One HTTP POST as handed to the HTTP client. -/
structure HttpRequest where
  url : Str
  headers : List (Str × Str)
  body : JsonDoc
deriving DecidableEq, Repr

/-- One call on a serial channel. -/
inductive Out
  | print (s : Str)
  | println (s : Str)
deriving DecidableEq, Repr

/-- What the firmware reads from its collaborators. Each answer is indexed by the
number of earlier calls of the same kind, so an answer may depend on everything that
happened before. -/
structure Env where
  /-- Whether the n-th call of `WiFi.status()` returns `WL_CONNECTED`. -/
  radio : Nat → Bool
  /-- Result of `analogRead(pin)` at the n-th read. -/
  analogRead : Pin → Nat → Int
  /-- Result of the n-th call of `WiFi.getTime()`. -/
  getTime : Nat → Int
  /-- Result code of the n-th `http.POST`. -/
  post : Nat → Int
  /-- The rendering `String(float)`. -/
  floatToString : Reading → Str

/-! ## Device state -/

/-- The fixed-size arrays `String tankNames[10]` and `String tankIds[10]`. -/
abbrev TankArray := { l : List Str // l.length = 10 }

/-- Write `a[i] = v`; `none` when `i` is outside `0..9`. -/
def arrayWrite (a : TankArray) (i : Int) (v : Str) : Option TankArray :=
  if 0 ≤ i ∧ i < 10 then some ⟨a.1.set i.toNat v, by simp [a.2]⟩ else none

/-- The array with all ten slots empty. -/
def emptyTankArray : TankArray :=
  ⟨List.replicate 10 [], by simp⟩

/-- The global variables of the sketch. -/
structure Globals where
  wifiSSID : Str
  wifiPassword : Str
  deviceUID : Str
  supabaseUrl : Str
  supabaseKey : Str
  tankNames : TankArray
  tankIds : TankArray
  tankCount : Int
  selectedTankId : Str
deriving DecidableEq, Repr

/-- The whole system: globals, persisted store, and the log of every call the firmware
has made on its collaborators. -/
structure Sys where
  globals : Globals
  preferences : Store
  /-- Calls on `SerialBT`, the channel to the controller, oldest first. -/
  serialBT : List Out
  /-- Calls on `Serial`, the debug console, oldest first. -/
  serial : List Out
  /-- Number of calls of `WiFi.status()` so far. -/
  statusPolls : Nat
  /-- Arguments of the calls of `WiFi.begin`. -/
  wifiBegins : List (Str × Str)
  /-- Arguments of the calls of `delay`, in milliseconds. -/
  delays : List Nat
  /-- Pins read by `analogRead`. -/
  analogReads : List Pin
  /-- Number of calls of `WiFi.getTime()` so far. -/
  timeCalls : Nat
  /-- Requests handed to `http.POST`. -/
  posts : List HttpRequest
deriving DecidableEq, Repr

/-- Values of the globals at power-up, before `setup`. -/
def initialGlobals : Globals where
  wifiSSID := []
  wifiPassword := []
  deviceUID := []
  supabaseUrl := []
  supabaseKey := []
  tankNames := emptyTankArray
  tankIds := emptyTankArray
  tankCount := 0
  selectedTankId := []

/-- Power-up state over a given store, with empty logs. -/
def bootSys (st : Store) : Sys where
  globals := initialGlobals
  preferences := st
  serialBT := []
  serial := []
  statusPolls := 0
  wifiBegins := []
  delays := []
  analogReads := []
  timeCalls := 0
  posts := []

/-- `SerialBT.println(s)`. -/
def btPrintln (s : Sys) (line : Str) : Sys :=
  { s with serialBT := s.serialBT ++ [Out.println line] }

/-- `Serial.println(s)`. -/
def serialPrintln (s : Sys) (line : Str) : Sys :=
  { s with serial := s.serial ++ [Out.println line] }

/-- `Serial.print(s)`. -/
def serialPrint (s : Sys) (text : Str) : Sys :=
  { s with serial := s.serial ++ [Out.print text] }

/-- `delay(ms)`. -/
def delay (s : Sys) (ms : Nat) : Sys :=
  { s with delays := s.delays ++ [ms] }

/-- `WiFi.status() == WL_CONNECTED`: one poll of the radio. -/
def wifiStatusConnected (env : Env) (s : Sys) : Bool × Sys :=
  (env.radio s.statusPolls, { s with statusPolls := s.statusPolls + 1 })

/-! ## Persistence -/

/-- `saveWiFiCredentials()`. -/
def saveWiFiCredentials (s : Sys) : Sys :=
  let st := s.preferences
  let st := putString st "ssid".toList s.globals.wifiSSID
  let st := putString st "password".toList s.globals.wifiPassword
  let st := putString st "device_uid".toList s.globals.deviceUID
  let st := putString st "supabase_url".toList s.globals.supabaseUrl
  let st := putString st "supabase_key".toList s.globals.supabaseKey
  { s with preferences := st }

/-- `loadWiFiCredentials()`. -/
def loadWiFiCredentials (s : Sys) : Sys :=
  let g := s.globals
  let g := { g with wifiSSID := getString s.preferences "ssid".toList [] }
  let g := { g with wifiPassword := getString s.preferences "password".toList [] }
  let g := { g with deviceUID := getString s.preferences "device_uid".toList [] }
  let g := { g with supabaseUrl := getString s.preferences "supabase_url".toList [] }
  let g := { g with supabaseKey := getString s.preferences "supabase_key".toList [] }
  { s with globals := g }

/-! ## Tank registry -/

/-- The `while` loop of `parseTankNames`; `none` when the fuel runs out or when a
write falls outside the array. Returns the globals and the final `start`. -/
def parseTankNamesLoop (tankList : Str) : Nat → Globals → Int → Int → Option (Globals × Int)
  | 0, _, _, _ => none
  | fuel + 1, g, start, pipePos =>
    if pipePos > 0 ∧ g.tankCount < 10 then
      match arrayWrite g.tankNames g.tankCount (substring tankList start.toNat pipePos.toNat) with
      | none => none
      | some names =>
        let g := { g with tankNames := names }
        let g := { g with tankCount := g.tankCount + 1 }
        let start := pipePos + 1
        let pipePos := indexOf tankList '|' start.toNat
        parseTankNamesLoop tankList fuel g start pipePos
    else some (g, start)

/-- The block "Add the last tank name" that follows the loop of `parseTankNames`. -/
def parseTankNamesLast (tankList : Str) (g : Globals) (start : Int) : Option Globals :=
  if start < (tankList.length : Int) ∧ g.tankCount < 10 then
    match arrayWrite g.tankNames g.tankCount (substringFrom tankList start.toNat) with
    | none => none
    | some names =>
      let g := { g with tankNames := names }
      some { g with tankCount := g.tankCount + 1 }
  else some g

/-- `parseTankNames(tankList)`. Every turn of the loop moves `start` past one more
delimiter, so the fuel `tankList.length + 1` is never exhausted. -/
def parseTankNames (g : Globals) (tankList : Str) : Option Globals :=
  let g := { g with tankCount := 0 }
  let start : Int := 0
  let pipePos := indexOf tankList '|' 0
  match parseTankNamesLoop tankList (tankList.length + 1) g start pipePos with
  | none => none
  | some (g, start) => parseTankNamesLast tankList g start

/-- The `while` loop of `parseTankIds`, over the local `count`. Returns the globals,
`count` and `start`. -/
def parseTankIdsLoop (idList : Str) :
    Nat → Globals → Int → Int → Int → Option (Globals × Int × Int)
  | 0, _, _, _, _ => none
  | fuel + 1, g, count, start, pipePos =>
    if pipePos > 0 ∧ count < 10 then
      match arrayWrite g.tankIds count (substring idList start.toNat pipePos.toNat) with
      | none => none
      | some ids =>
        let g := { g with tankIds := ids }
        let count := count + 1
        let start := pipePos + 1
        let pipePos := indexOf idList '|' start.toNat
        parseTankIdsLoop idList fuel g count start pipePos
    else some (g, count, start)

/-- The block "Add the last tank ID" that follows the loop of `parseTankIds`. -/
def parseTankIdsLast (idList : Str) (g : Globals) (count start : Int) : Option (Globals × Int) :=
  if start < (idList.length : Int) ∧ count < 10 then
    match arrayWrite g.tankIds count (substringFrom idList start.toNat) with
    | none => none
    | some ids => some ({ g with tankIds := ids }, count + 1)
  else some (g, count)

/-- `parseTankIds(idList)`, with the final value of the local `count`. -/
def parseTankIdsCount (g : Globals) (idList : Str) : Option (Globals × Int) :=
  let count : Int := 0
  let start : Int := 0
  let pipePos := indexOf idList '|' 0
  match parseTankIdsLoop idList (idList.length + 1) g count start pipePos with
  | none => none
  | some (g, count, start) => parseTankIdsLast idList g count start

/-- `parseTankIds(idList)`. -/
def parseTankIds (g : Globals) (idList : Str) : Option Globals :=
  (parseTankIdsCount g idList).map Prod.fst

/-! ## Network connector -/

/-- The polling loop of `connectToWiFi`; `none` when the fuel runs out. Returns the
state and the final `attempts`. -/
def connectLoop (env : Env) : Nat → Sys → Int → Option (Sys × Int)
  | 0, _, _ => none
  | fuel + 1, s, attempts =>
    let (connected, s) := wifiStatusConnected env s
    if !connected ∧ attempts < 20 then
      let s := delay s 1000
      let s := serialPrint s ".".toList
      connectLoop env fuel s (attempts + 1)
    else some (s, attempts)

/-- `connectToWiFi()`. The loop body runs at most twenty times, so the fuel 21 is
never exhausted. `WiFi.localIP().toString()` is not modelled: the console line that
carries it is logged without the address. -/
def connectToWiFi (env : Env) (s : Sys) : Option Sys :=
  if s.globals.wifiSSID.length = 0 then some s
  else
    let s := serialPrintln s ("Connecting to WiFi: ".toList ++ s.globals.wifiSSID)
    let s := { s with wifiBegins := s.wifiBegins ++ [(s.globals.wifiSSID, s.globals.wifiPassword)] }
    match connectLoop env 21 s 0 with
    | none => none
    | some (s, _) =>
      let (connected, s) := wifiStatusConnected env s
      if connected then
        let s := serialPrintln s "\nWiFi connected!".toList
        let s := serialPrintln s "IP address: ".toList
        some (btPrintln s "WiFi connected successfully!".toList)
      else
        let s := serialPrintln s "\nWiFi connection failed!".toList
        some (btPrintln s "WiFi connection failed!".toList)

/-! ## Command dispatcher -/

/-- `handleBluetoothCommand(command)`. -/
def handleBluetoothCommand (env : Env) (s : Sys) (command : Str) : Option Sys :=
  let s := serialPrintln s ("Received: ".toList ++ command)
  if startsWith command "PROVISION:".toList then
    let firstPipe := indexOf command '|' 10
    let secondPipe := indexOf command '|' (firstPipe + 1).toNat
    let thirdPipe := indexOf command '|' (secondPipe + 1).toNat
    let fourthPipe := indexOf command '|' (thirdPipe + 1).toNat
    if firstPipe > 0 ∧ secondPipe > 0 ∧ thirdPipe > 0 ∧ fourthPipe > 0 then
      let g := s.globals
      let g := { g with wifiSSID := substring command 10 firstPipe.toNat }
      let g := { g with wifiPassword := substring command (firstPipe + 1).toNat secondPipe.toNat }
      let g := { g with deviceUID := substring command (secondPipe + 1).toNat thirdPipe.toNat }
      let g := { g with supabaseUrl := substring command (thirdPipe + 1).toNat fourthPipe.toNat }
      let g := { g with supabaseKey := substringFrom command (fourthPipe + 1).toNat }
      let s := { s with globals := g }
      let s := saveWiFiCredentials s
      match connectToWiFi env s with
      | none => none
      | some s =>
        some (btPrintln s "WiFi and Supabase credentials received. Connecting...".toList)
    else some s
  else if startsWith command "SET_TANKS:".toList then
    let tankList := substringFrom command 10
    match parseTankNames s.globals tankList with
    | none => none
    | some g =>
      let s := { s with globals := g }
      some (btPrintln s ("Tank names set: ".toList ++ intToString s.globals.tankCount))
  else if startsWith command "SET_TANK_IDS:".toList then
    let idList := substringFrom command 13
    match parseTankIds s.globals idList with
    | none => none
    | some g =>
      let s := { s with globals := g }
      some (btPrintln s ("Tank IDs set: ".toList ++ intToString s.globals.tankCount))
  else if startsWith command "SET_NAME:".toList then
    let deviceName := substringFrom command 9
    some (btPrintln s ("Device name set: ".toList ++ deviceName))
  else if startsWith command "SELECT_TANK:".toList then
    let s := { s with globals := { s.globals with selectedTankId := substringFrom command 12 } }
    some (btPrintln s ("Selected tank: ".toList ++ s.globals.selectedTankId))
  else some s

/-! ## Telemetry uploader -/

/-- `analogRead(pin)`. -/
def analogRead (env : Env) (s : Sys) (pin : Pin) : Int × Sys :=
  (env.analogRead pin s.analogReads.length, { s with analogReads := s.analogReads ++ [pin] })

/-- `readTemperature()`. -/
def readTemperature (env : Env) (s : Sys) : Reading × Sys :=
  let (rawValue, s) := analogRead env s Pin.A0
  (Reading.temperature rawValue, s)

/-- `readPH()`. -/
def readPH (env : Env) (s : Sys) : Reading × Sys :=
  let (rawValue, s) := analogRead env s Pin.A1
  (Reading.ph rawValue, s)

/-- `readTDS()`. -/
def readTDS (env : Env) (s : Sys) : Reading × Sys :=
  let (rawValue, s) := analogRead env s Pin.A2
  (Reading.tds rawValue, s)

/-- `WiFi.getTime()`. -/
def wifiGetTime (env : Env) (s : Sys) : Int × Sys :=
  (env.getTime s.timeCalls, { s with timeCalls := s.timeCalls + 1 })

/-- `http.POST(...)` on a request prepared by `http.begin` and `http.addHeader`. -/
def httpPost (env : Env) (s : Sys) (req : HttpRequest) : Int × Sys :=
  (env.post s.posts.length, { s with posts := s.posts ++ [req] })

/-- `sendSensorReadings()`. The document is handed to the HTTP client as built; the
text produced by `serializeJson` is not modelled, and neither are `http.getString()`,
whose result is unused, and `http.end()`. -/
def sendSensorReadings (env : Env) (s : Sys) : Sys :=
  let (temperature, s) := readTemperature env s
  let (ph, s) := readPH env s
  let (tds, s) := readTDS env s
  let doc : JsonDoc := []
  let doc := jsonSet doc "device_uid".toList (JsonValue.str s.globals.deviceUID)
  let doc := jsonSet doc "tank_id".toList (JsonValue.str s.globals.selectedTankId)
  let doc := jsonSet doc "temperature".toList (JsonValue.num temperature)
  let doc := jsonSet doc "ph".toList (JsonValue.num ph)
  let doc := jsonSet doc "tds".toList (JsonValue.num tds)
  let (now, s) := wifiGetTime env s
  let doc := jsonSet doc "recorded_at".toList (JsonValue.time now)
  let req : HttpRequest :=
    { url := s.globals.supabaseUrl ++ "/rest/v1/sensor_readings".toList
      headers :=
        [("Content-Type".toList, "application/json".toList),
         ("apikey".toList, s.globals.supabaseKey),
         ("Authorization".toList, "Bearer ".toList ++ s.globals.supabaseKey)]
      body := doc }
  let (httpResponseCode, s) := httpPost env s req
  if httpResponseCode > 0 then
    let s := serialPrintln s ("Supabase response: ".toList ++ intToString httpResponseCode)
    btPrintln s
      ("Reading sent: T=".toList ++ env.floatToString temperature ++ " pH=".toList
        ++ env.floatToString ph ++ " TDS=".toList ++ env.floatToString tds)
  else
    let s := serialPrintln s ("Error sending to Supabase: ".toList ++ intToString httpResponseCode)
    btPrintln s "Error sending reading to cloud".toList

/-! ## Device loop -/

/-- `setup()`. The initialisation calls `Serial.begin`, `SerialBT.begin` and `pinMode`
leave no trace in the model. -/
def setup (env : Env) (s : Sys) : Option Sys :=
  let s := serialPrintln s "Bluetooth device is ready to pair".toList
  let s := loadWiFiCredentials s
  if s.globals.wifiSSID.length > 0 then connectToWiFi env s else some s

/-- The first statement of `loop()`: when `SerialBT.available()`, one line is read,
trimmed and dispatched. `incoming` is `none` when nothing is available and otherwise
the text returned by `SerialBT.readStringUntil`. -/
def loopCommand (env : Env) (incoming : Option Str) (s : Sys) : Option Sys :=
  match incoming with
  | some command => handleBluetoothCommand env s (trim command)
  | none => some s

/-- The second statement of `loop()` and the closing `delay(100)`. -/
def loopTelemetry (env : Env) (s : Sys) : Sys :=
  let (connected, s) := wifiStatusConnected env s
  if connected ∧ s.globals.selectedTankId.length > 0 then
    let s := sendSensorReadings env s
    let s := delay s 30000
    delay s 100
  else delay s 100

/-- One iteration of `loop()`. -/
def loop (env : Env) (incoming : Option Str) (s : Sys) : Option Sys :=
  match loopCommand env incoming s with
  | none => none
  | some s => some (loopTelemetry env s)

/-! ## Reference tokenization -/

/-- Reference tokenization, in the words of the specification: the payload is split at
every delimiter from left to right, and the remainder after the last delimiter is
appended as the last field only if it is non-empty. `cur` is the field being read. -/
def tokenizeFrom (delim : Char) (cur : Str) : Str → List Str
  | [] => if cur = [] then [] else [cur]
  | c :: cs =>
    if c = delim then cur :: tokenizeFrom delim [] cs
    else tokenizeFrom delim (cur ++ [c]) cs

/-- Reference tokenization of a payload at the delimiter `|`. -/
def referenceTokens (payload : Str) : List Str :=
  tokenizeFrom '|' [] payload

/-- The fields the two parsers extract: a payload whose first character is the
delimiter is taken whole, any other payload is tokenized. -/
def parsedTokens (payload : Str) : List Str :=
  if payload.head? = some '|' then [payload] else referenceTokens payload

/-- Array after the writes `a[i] = t0`, `a[i+1] = t1`, ... of consecutive tokens. -/
def storeTokens (a : TankArray) (i : Nat) : List Str → TankArray
  | [] => a
  | t :: ts => storeTokens ⟨a.1.set i t, by simp [a.2]⟩ (i + 1) ts

/-- The names `x0`, `x1`, ... joined by the delimiter: `x0|x1|...`. -/
def joinPipe : List Str → Str
  | [] => []
  | [x] => x
  | x :: y :: rest => x ++ '|' :: joinPipe (y :: rest)

/-- A collaborator environment in which the radio never reports a link, every sensor
reads 0, the clock reads 0 and every POST answers 200. -/
def quietEnv : Env where
  radio := fun _ => false
  analogRead := fun _ _ => 0
  getTime := fun _ => 0
  post := fun _ => 200
  floatToString := fun _ => "0.00".toList

/-! ## Command sequences and further environments -/

/-- Dispatch of a finite sequence of command lines, one after the other. -/
def dispatchAll (env : Env) : Sys → List Str → Option Sys
  | s, [] => some s
  | s, line :: rest =>
    match handleBluetoothCommand env s line with
    | none => none
    | some s1 => dispatchAll env s1 rest

/-- An environment like `quietEnv`, except that the radio reports a link at its very
first poll and at no later one. -/
def flakyEnv : Env where
  radio := fun n => n == 0
  analogRead := fun _ _ => 0
  getTime := fun _ => 0
  post := fun _ => 200
  floatToString := fun _ => "0.00".toList

/-- An environment like `quietEnv`, except that every POST answers 500. -/
def serverErrorEnv : Env where
  radio := fun _ => false
  analogRead := fun _ _ => 0
  getTime := fun _ => 0
  post := fun _ => 500
  floatToString := fun _ => "0.00".toList

/-! ## Lemmas on the string operations -/

theorem strchr_of_not_mem (ch : Char) (l : Str) (h : ch ∉ l) : strchr ch l = none := by
  induction l with
  | nil => rfl
  | cons c cs ih =>
    simp only [List.mem_cons, not_or] at h
    have hc : ¬ c = ch := fun e => h.1 e.symm
    simp [strchr, hc, ih h.2]

theorem strchr_append (ch : Char) (f r : Str) (h : ch ∉ f) :
    strchr ch (f ++ ch :: r) = some f.length := by
  induction f with
  | nil => simp [strchr]
  | cons c cs ih =>
    simp only [List.mem_cons, not_or] at h
    have hc : ¬ c = ch := fun e => h.1 e.symm
    simp [strchr, hc, ih h.2]

theorem split_cases (ch : Char) (l : Str) :
    ch ∉ l ∨ ∃ f r, l = f ++ ch :: r ∧ ch ∉ f := by
  induction l with
  | nil => left; simp
  | cons c cs ih =>
    by_cases hc : c = ch
    · right; exact ⟨[], cs, by simp [hc], by simp⟩
    · rcases ih with h | ⟨f, r, e, hf⟩
      · left
        simp only [List.mem_cons, not_or]
        exact ⟨fun e => hc e.symm, h⟩
      · right
        refine ⟨c :: f, r, by simp [e], ?_⟩
        simp only [List.mem_cons, not_or]
        exact ⟨fun e => hc e.symm, hf⟩

theorem indexOf_none (ch : Char) (pre rest : Str) (h : ch ∉ rest) :
    indexOf (pre ++ rest) ch pre.length = -1 := by
  unfold indexOf
  split
  · rfl
  · simp [strchr_of_not_mem ch rest h]

theorem indexOf_found (ch : Char) (pre f r : Str) (h : ch ∉ f) :
    indexOf (pre ++ (f ++ ch :: r)) ch pre.length = ((pre.length + f.length : Nat) : Int) := by
  unfold indexOf
  split
  · rename_i hge
    simp at hge
  · simp [strchr_append ch f r h]

theorem substring_mid (pre f r : Str) :
    substring (pre ++ (f ++ r)) pre.length (pre.length + f.length) = f := by
  unfold substring
  have h1 : ¬ pre.length > pre.length + f.length := by omega
  simp only [h1, if_false]
  split
  · rename_i hge
    simp at hge
    have : f = [] := by
      cases f with
      | nil => rfl
      | cons c cs => simp at hge
    simp [this]
  · have h2 : ¬ pre.length + f.length > (pre ++ (f ++ r)).length := by simp
    simp [h2]

theorem substringFrom_append (pre r : Str) :
    substringFrom (pre ++ r) pre.length = r := by
  have := substring_mid pre r []
  simpa [substringFrom] using this

/-! ## Lemmas on the tokenizer -/

theorem tokenizeFrom_no_delim (d : Char) (f : Str) (h : d ∉ f) :
    ∀ cur : Str, tokenizeFrom d cur f = if cur ++ f = [] then [] else [cur ++ f] := by
  induction f with
  | nil => intro cur; simp [tokenizeFrom]
  | cons c cs ih =>
    intro cur
    simp only [List.mem_cons, not_or] at h
    have hc : ¬ c = d := fun e => h.1 e.symm
    simp [tokenizeFrom, hc, ih h.2]

theorem tokenizeFrom_append (d : Char) (f r : Str) (h : d ∉ f) :
    ∀ cur : Str, tokenizeFrom d cur (f ++ d :: r) = (cur ++ f) :: tokenizeFrom d [] r := by
  induction f with
  | nil => intro cur; simp [tokenizeFrom]
  | cons c cs ih =>
    intro cur
    simp only [List.mem_cons, not_or] at h
    have hc : ¬ c = d := fun e => h.1 e.symm
    simp [tokenizeFrom, hc, ih h.2]

theorem arrayWrite_eq (a : TankArray) (i : Int) (v : Str) (h0 : 0 ≤ i) (h1 : i < 10) :
    arrayWrite a i v = some ⟨a.1.set i.toNat v, by simp [a.2]⟩ := by
  simp [arrayWrite, h0, h1]

/-- Specification of the loop of `parseTankNames` followed by the block after it, from
any position `pre.length` that is not a leading delimiter. -/
theorem parseTankNamesLoop_spec (tankList : Str) :
    ∀ (fuel : Nat) (g : Globals) (pre rest : Str),
      tankList = pre ++ rest → rest.length < fuel →
      0 ≤ g.tankCount → g.tankCount ≤ 10 →
      (pre ≠ [] ∨ rest.head? ≠ some '|') →
      ∃ g1 start1,
        parseTankNamesLoop tankList fuel g (pre.length : Int)
            (indexOf tankList '|' pre.length) = some (g1, start1) ∧
        parseTankNamesLast tankList g1 start1 =
          some { g with
            tankNames := storeTokens g.tankNames g.tankCount.toNat
              ((tokenizeFrom '|' [] rest).take (10 - g.tankCount).toNat)
            tankCount := g.tankCount +
              (((tokenizeFrom '|' [] rest).take (10 - g.tankCount).toNat).length : Int) } := by
  intro fuel
  induction fuel with
  | zero => intro g pre rest _ hlen; omega
  | succ fuel ih =>
    intro g pre rest hl hlen hc0 hc10 hlead
    rcases split_cases '|' rest with hno | ⟨f, r, hr, hf⟩
    · -- no delimiter left: the loop stops at once
      have hidx : indexOf tankList '|' pre.length = -1 := by
        rw [hl]; exact indexOf_none '|' pre rest hno
      refine ⟨g, (pre.length : Int), ?_, ?_⟩
      · rw [hidx]; simp [parseTankNamesLoop]
      · rw [tokenizeFrom_no_delim '|' rest hno []]
        by_cases hrest : rest = []
        · subst hrest
          simp [parseTankNamesLast, hl, storeTokens]
        · have hpos : 0 < rest.length := List.length_pos.mpr hrest
          by_cases hfull : g.tankCount < 10
          · have hsub : substringFrom tankList pre.length = rest := by
              rw [hl]; exact substringFrom_append pre rest
            have htake : (10 - g.tankCount).toNat = (10 - g.tankCount).toNat - 1 + 1 := by omega
            simp only [parseTankNamesLast, hl, List.length_append, Nat.cast_add]
            rw [if_pos ⟨by omega, hfull⟩]
            simp only [Int.toNat_ofNat, ← hl, hsub, arrayWrite_eq _ _ _ hc0 hfull]
            rw [htake]
            simp [hrest, storeTokens]
          · have hz : (10 - g.tankCount).toNat = 0 := by omega
            simp [parseTankNamesLast, hfull, hz, storeTokens]
    · -- a field closed by a delimiter
      subst hr
      have hidx : indexOf tankList '|' pre.length = ((pre.length + f.length : Nat) : Int) := by
        rw [hl]; exact indexOf_found '|' pre f r hf
      have hppos : (0 : Int) < ((pre.length + f.length : Nat) : Int) := by
        rcases hlead with hp | hh
        · have : 0 < pre.length := List.length_pos.mpr hp
          omega
        · cases f with
          | nil => simp at hh
          | cons c cs => simp; omega
      rw [tokenizeFrom_append '|' f r hf []]
      by_cases hfull : g.tankCount < 10
      · have hsub : substring tankList pre.length (pre.length + f.length) = f := by
          rw [hl]; exact substring_mid pre f ('|' :: r)
        have hl2 : tankList = (pre ++ f ++ ['|']) ++ r := by simp [hl]
        have hlen2 : r.length < fuel := by
          rw [List.length_append, List.length_cons] at hlen; omega
        obtain ⟨g1, start1, hloop, hlast⟩ := ih
          { g with
            tankNames := ⟨g.tankNames.1.set g.tankCount.toNat f, by simp [g.tankNames.2]⟩
            tankCount := g.tankCount + 1 }
          (pre ++ f ++ ['|']) r hl2 hlen2 (by simp; omega) (by simp; omega)
          (Or.inl (by simp))
        refine ⟨g1, start1, ?_, ?_⟩
        · rw [hidx]
          simp only [parseTankNamesLoop]
          rw [if_pos ⟨by exact_mod_cast hppos, hfull⟩]
          simp only [Int.toNat_ofNat, hsub, arrayWrite_eq _ _ _ hc0 hfull]
          have e1 : (((pre.length + f.length : Nat) : Int) + 1).toNat
              = (pre ++ f ++ ['|']).length := by simp; omega
          have e2 : (((pre.length + f.length : Nat) : Int) + 1)
              = (((pre ++ f ++ ['|']).length : Nat) : Int) := by simp; omega
          rw [e1, e2]
          exact hloop
        · rw [hlast]
          have htake : (10 - g.tankCount).toNat = (10 - (g.tankCount + 1)).toNat + 1 := by omega
          have hnat : (g.tankCount + 1).toNat = g.tankCount.toNat + 1 := by omega
          rw [htake]
          simp only [List.nil_append, List.take_succ_cons, storeTokens, hnat, List.length_cons]
          simp only [Option.some.injEq, Globals.mk.injEq, true_and, and_true]
          push_cast
          omega
      · have hz : (10 - g.tankCount).toNat = 0 := by omega
        refine ⟨g, (pre.length : Int), ?_, ?_⟩
        · simp [parseTankNamesLoop, hfull]
        · simp [parseTankNamesLast, hfull, hz, storeTokens]

/-- Specification of the loop of `parseTankIds` followed by the block after it, from
any position `pre.length` that is not a leading delimiter. -/
theorem parseTankIdsLoop_spec (idList : Str) :
    ∀ (fuel : Nat) (g : Globals) (count : Int) (pre rest : Str),
      idList = pre ++ rest → rest.length < fuel →
      0 ≤ count → count ≤ 10 →
      (pre ≠ [] ∨ rest.head? ≠ some '|') →
      ∃ g1 count1 start1,
        parseTankIdsLoop idList fuel g count (pre.length : Int)
            (indexOf idList '|' pre.length) = some (g1, count1, start1) ∧
        parseTankIdsLast idList g1 count1 start1 =
          some ({ g with
            tankIds := storeTokens g.tankIds count.toNat
              ((tokenizeFrom '|' [] rest).take (10 - count).toNat) },
            count + (((tokenizeFrom '|' [] rest).take (10 - count).toNat).length : Int)) := by
  intro fuel
  induction fuel with
  | zero => intro g count pre rest _ hlen; omega
  | succ fuel ih =>
    intro g count pre rest hl hlen hc0 hc10 hlead
    rcases split_cases '|' rest with hno | ⟨f, r, hr, hf⟩
    · have hidx : indexOf idList '|' pre.length = -1 := by
        rw [hl]; exact indexOf_none '|' pre rest hno
      refine ⟨g, count, (pre.length : Int), ?_, ?_⟩
      · rw [hidx]; simp [parseTankIdsLoop]
      · rw [tokenizeFrom_no_delim '|' rest hno []]
        by_cases hrest : rest = []
        · subst hrest
          simp [parseTankIdsLast, hl, storeTokens]
        · have hpos : 0 < rest.length := List.length_pos.mpr hrest
          by_cases hfull : count < 10
          · have hsub : substringFrom idList pre.length = rest := by
              rw [hl]; exact substringFrom_append pre rest
            have htake : (10 - count).toNat = (10 - count).toNat - 1 + 1 := by omega
            simp only [parseTankIdsLast, hl, List.length_append, Nat.cast_add]
            rw [if_pos ⟨by omega, hfull⟩]
            simp only [Int.toNat_ofNat, ← hl, hsub, arrayWrite_eq _ _ _ hc0 hfull]
            rw [htake]
            simp [hrest, storeTokens]
          · have hz : (10 - count).toNat = 0 := by omega
            simp [parseTankIdsLast, hfull, hz, storeTokens]
    · subst hr
      have hidx : indexOf idList '|' pre.length = ((pre.length + f.length : Nat) : Int) := by
        rw [hl]; exact indexOf_found '|' pre f r hf
      have hppos : (0 : Int) < ((pre.length + f.length : Nat) : Int) := by
        rcases hlead with hp | hh
        · have : 0 < pre.length := List.length_pos.mpr hp
          omega
        · cases f with
          | nil => simp at hh
          | cons c cs => simp; omega
      rw [tokenizeFrom_append '|' f r hf []]
      by_cases hfull : count < 10
      · have hsub : substring idList pre.length (pre.length + f.length) = f := by
          rw [hl]; exact substring_mid pre f ('|' :: r)
        have hl2 : idList = (pre ++ f ++ ['|']) ++ r := by simp [hl]
        have hlen2 : r.length < fuel := by
          rw [List.length_append, List.length_cons] at hlen; omega
        obtain ⟨g1, count1, start1, hloop, hlast⟩ := ih
          { g with tankIds := ⟨g.tankIds.1.set count.toNat f, by simp [g.tankIds.2]⟩ }
          (count + 1) (pre ++ f ++ ['|']) r hl2 hlen2 (by omega) (by omega)
          (Or.inl (by simp))
        refine ⟨g1, count1, start1, ?_, ?_⟩
        · rw [hidx]
          simp only [parseTankIdsLoop]
          rw [if_pos ⟨by exact_mod_cast hppos, hfull⟩]
          simp only [Int.toNat_ofNat, hsub, arrayWrite_eq _ _ _ hc0 hfull]
          have e1 : (((pre.length + f.length : Nat) : Int) + 1).toNat
              = (pre ++ f ++ ['|']).length := by simp; omega
          have e2 : (((pre.length + f.length : Nat) : Int) + 1)
              = (((pre ++ f ++ ['|']).length : Nat) : Int) := by simp; omega
          rw [e1, e2]
          exact hloop
        · rw [hlast]
          have htake : (10 - count).toNat = (10 - (count + 1)).toNat + 1 := by omega
          have hnat : (count + 1).toNat = count.toNat + 1 := by omega
          rw [htake]
          simp only [List.nil_append, List.take_succ_cons, storeTokens, hnat, List.length_cons]
          simp only [Option.some.injEq, Prod.mk.injEq, true_and, and_true]
          push_cast
          omega
      · have hz : (10 - count).toNat = 0 := by omega
        refine ⟨g, count, (pre.length : Int), ?_, ?_⟩
        · simp [parseTankIdsLoop, hfull]
        · simp [parseTankIdsLast, hfull, hz, storeTokens]

/-- What `parseTankNames` computes, for every payload: the first ten parsed tokens are
written from slot 0 on and `tankCount` is their number. -/
theorem parseTankNames_spec (g : Globals) (payload : Str) :
    parseTankNames g payload =
      some { g with
        tankNames := storeTokens g.tankNames 0 ((parsedTokens payload).take 10)
        tankCount := (((parsedTokens payload).take 10).length : Int) } := by
  by_cases hhead : payload.head? = some '|'
  · cases payload with
    | nil => simp at hhead
    | cons c r =>
      simp only [List.head?_cons, Option.some.injEq] at hhead
      subst hhead
      have hidx : indexOf ('|' :: r) '|' 0 = 0 := by
        have := indexOf_found '|' [] [] r (by simp)
        simpa using this
      have hsub : substringFrom ('|' :: r) 0 = '|' :: r := substringFrom_append [] ('|' :: r)
      simp only [parseTankNames, hidx, parsedTokens, List.head?_cons, if_true]
      simp [parseTankNamesLoop, parseTankNamesLast, hsub, arrayWrite, storeTokens]
  · obtain ⟨g1, start1, hloop, hlast⟩ := parseTankNamesLoop_spec payload (payload.length + 1)
      { g with tankCount := 0 } [] payload rfl (by omega) (by simp) (by simp) (Or.inr hhead)
    simp only [List.length_nil, Nat.cast_zero] at hloop
    simp only [parseTankNames, hloop, hlast, parsedTokens, hhead, if_false, referenceTokens]
    simp

/-- What `parseTankIds` computes, for every payload: the first ten parsed tokens are
written to `tankIds` from slot 0 on, the local count is their number, and nothing
else changes. -/
theorem parseTankIdsCount_spec (g : Globals) (payload : Str) :
    parseTankIdsCount g payload =
      some ({ g with tankIds := storeTokens g.tankIds 0 ((parsedTokens payload).take 10) },
        (((parsedTokens payload).take 10).length : Int)) := by
  by_cases hhead : payload.head? = some '|'
  · cases payload with
    | nil => simp at hhead
    | cons c r =>
      simp only [List.head?_cons, Option.some.injEq] at hhead
      subst hhead
      have hidx : indexOf ('|' :: r) '|' 0 = 0 := by
        have := indexOf_found '|' [] [] r (by simp)
        simpa using this
      have hsub : substringFrom ('|' :: r) 0 = '|' :: r := substringFrom_append [] ('|' :: r)
      simp only [parseTankIdsCount, hidx, parsedTokens, List.head?_cons, if_true]
      simp [parseTankIdsLoop, parseTankIdsLast, hsub, arrayWrite, storeTokens]
  · obtain ⟨g1, count1, start1, hloop, hlast⟩ := parseTankIdsLoop_spec payload
      (payload.length + 1) g 0 [] payload rfl (by omega) (by simp) (by simp) (Or.inr hhead)
    simp only [List.length_nil, Nat.cast_zero] at hloop
    simp only [parseTankIdsCount, hloop, hlast, parsedTokens, hhead, if_false, referenceTokens]
    simp

theorem parseTankIds_spec (g : Globals) (payload : Str) :
    parseTankIds g payload =
      some { g with tankIds := storeTokens g.tankIds 0 ((parsedTokens payload).take 10) } := by
  simp [parseTankIds, parseTankIdsCount_spec]

/-! ## Lemmas on the network connector -/

/-- The polling loop returns when its fuel exceeds the attempts that remain, and it
touches nothing but the radio poll counter, the delay log and the debug console. -/
theorem connectLoop_frame (env : Env) :
    ∀ (fuel : Nat) (s : Sys) (attempts : Int), (20 - attempts).toNat < fuel →
      ∃ s1 attempts1, connectLoop env fuel s attempts = some (s1, attempts1) ∧
        s1.globals = s.globals ∧ s1.preferences = s.preferences ∧
        s1.serialBT = s.serialBT ∧ s1.wifiBegins = s.wifiBegins ∧
        s1.analogReads = s.analogReads ∧ s1.timeCalls = s.timeCalls ∧
        s1.posts = s.posts := by
  intro fuel
  induction fuel with
  | zero => intro s attempts h; omega
  | succ fuel ih =>
    intro s attempts h
    by_cases hc : env.radio s.statusPolls = false ∧ attempts < 20
    · obtain ⟨s1, a1, hloop, hrest⟩ := ih
        (serialPrint (delay { s with statusPolls := s.statusPolls + 1 } 1000) ".".toList)
        (attempts + 1) (by omega)
      refine ⟨s1, a1, ?_, ?_⟩
      · simp only [connectLoop, wifiStatusConnected]
        rw [if_pos (by simpa using hc)]
        exact hloop
      · simpa [serialPrint, delay] using hrest
    · refine ⟨{ s with statusPolls := s.statusPolls + 1 }, attempts, ?_, ?_⟩
      · simp only [connectLoop, wifiStatusConnected]
        rw [if_neg (by simpa using hc)]
      · simp

theorem connectLoop_cases (env : Env) (fuel : Nat) (s : Sys) (attempts : Int)
    (h : (20 - attempts).toNat < fuel) (r : Option (Sys × Int))
    (hr : connectLoop env fuel s attempts = r) :
    ∃ s1 attempts1, r = some (s1, attempts1) ∧
      s1.globals = s.globals ∧ s1.preferences = s.preferences ∧
      s1.serialBT = s.serialBT ∧ s1.wifiBegins = s.wifiBegins ∧
      s1.analogReads = s.analogReads ∧ s1.timeCalls = s.timeCalls ∧
      s1.posts = s.posts := by
  obtain ⟨s1, a1, hloop, hrest⟩ := connectLoop_frame env fuel s attempts h
  exact ⟨s1, a1, hr.symm.trans hloop, hrest⟩

/-- `connectToWiFi` always returns; it changes neither the globals nor the store, reads
no sensor and posts nothing; with an empty SSID it does nothing at all, and otherwise
it calls `WiFi.begin` once and prints exactly one line to the controller. -/
theorem connectToWiFi_frame (env : Env) (s : Sys) :
    ∃ s1, connectToWiFi env s = some s1 ∧
      s1.globals = s.globals ∧ s1.preferences = s.preferences ∧
      s1.analogReads = s.analogReads ∧ s1.timeCalls = s.timeCalls ∧ s1.posts = s.posts ∧
      (s.globals.wifiSSID = [] → s1 = s) ∧
      (s.globals.wifiSSID ≠ [] →
        s1.wifiBegins = s.wifiBegins ++ [(s.globals.wifiSSID, s.globals.wifiPassword)] ∧
        ∃ line, s1.serialBT = s.serialBT ++ [Out.println line]) := by
  by_cases hs : s.globals.wifiSSID = []
  · exact ⟨s, by simp [connectToWiFi, hs], rfl, rfl, rfl, rfl, rfl, fun _ => rfl,
      fun h => absurd hs h⟩
  · have hlen : ¬ s.globals.wifiSSID.length = 0 := by
      simpa [List.length_eq_zero] using hs
    unfold connectToWiFi
    rw [if_neg hlen]
    dsimp only
    generalize hX : connectLoop env 21 _ 0 = r
    obtain ⟨s1, a1, hr, hg, hp, hbt, hwb, har, htc, hpo⟩ :=
      connectLoop_cases env 21 _ 0 (by decide) r hX
    subst hr
    simp only [serialPrintln] at hg hp hbt hwb har htc hpo
    by_cases hfin : env.radio s1.statusPolls = true
    · simp [wifiStatusConnected, hfin, btPrintln, serialPrintln, hg, hp, hbt, hwb, har, htc, hpo, hs]
    · simp [wifiStatusConnected, hfin, btPrintln, serialPrintln, hg, hp, hbt, hwb, har, htc, hpo, hs]

/-! ## Lemmas on the command dispatcher -/

theorem startsWith_append (p rest : Str) : startsWith (p ++ rest) p = true := by
  simp [startsWith]

theorem startsWith_iff (s p : Str) : startsWith s p = true ↔ p <+: s := by
  simp [startsWith]

/-- The state in which an accepted `PROVISION:` line calls `connectToWiFi`: the line is
echoed on the console, the five fields are assigned and saved. -/
theorem handle_provision (env : Env) (s : Sys) (a b c d e : Str)
    (ha : '|' ∉ a) (hb : '|' ∉ b) (hc : '|' ∉ c) (hd : '|' ∉ d) :
    handleBluetoothCommand env s
        ("PROVISION:".toList ++ (a ++ '|' :: (b ++ '|' :: (c ++ '|' :: (d ++ '|' :: e))))) =
      match connectToWiFi env (saveWiFiCredentials
          { serialPrintln s ("Received: ".toList ++
              ("PROVISION:".toList ++ (a ++ '|' :: (b ++ '|' :: (c ++ '|' :: (d ++ '|' :: e)))))) with
            globals := { s.globals with
              wifiSSID := a, wifiPassword := b, deviceUID := c
              supabaseUrl := d, supabaseKey := e } }) with
      | none => none
      | some t =>
        some (btPrintln t "WiFi and Supabase credentials received. Connecting...".toList) := by
  generalize hline :
    "PROVISION:".toList ++ (a ++ '|' :: (b ++ '|' :: (c ++ '|' :: (d ++ '|' :: e)))) = line
  have hP : "PROVISION:".toList.length = 10 := rfl
  have hstart : startsWith line "PROVISION:".toList = true := by
    rw [← hline]; exact startsWith_append _ _
  -- the four delimiters
  have h1 : indexOf line '|' 10 = ((10 + a.length : Nat) : Int) := by
    have := indexOf_found '|' "PROVISION:".toList a (b ++ '|' :: (c ++ '|' :: (d ++ '|' :: e))) ha
    rw [hline, hP] at this; exact this
  have l2 : line = ("PROVISION:".toList ++ a ++ ['|']) ++ (b ++ '|' :: (c ++ '|' :: (d ++ '|' :: e))) := by
    rw [← hline]; simp
  have n2 : ("PROVISION:".toList ++ a ++ ['|']).length = 10 + a.length + 1 := by
    simp only [List.length_append, hP, List.length_cons, List.length_nil]
  have h2 : indexOf line '|' (10 + a.length + 1) = ((10 + a.length + 1 + b.length : Nat) : Int) := by
    have := indexOf_found '|' ("PROVISION:".toList ++ a ++ ['|']) b (c ++ '|' :: (d ++ '|' :: e)) hb
    rw [← l2, n2] at this; exact this
  have l3 : line = ("PROVISION:".toList ++ a ++ ['|'] ++ b ++ ['|']) ++ (c ++ '|' :: (d ++ '|' :: e)) := by
    rw [← hline]; simp
  have n3 : ("PROVISION:".toList ++ a ++ ['|'] ++ b ++ ['|']).length
      = 10 + a.length + 1 + b.length + 1 := by
    simp only [List.length_append, hP, List.length_cons, List.length_nil]
  have h3 : indexOf line '|' (10 + a.length + 1 + b.length + 1)
      = ((10 + a.length + 1 + b.length + 1 + c.length : Nat) : Int) := by
    have := indexOf_found '|' ("PROVISION:".toList ++ a ++ ['|'] ++ b ++ ['|']) c (d ++ '|' :: e) hc
    rw [← l3, n3] at this; exact this
  have l4 : line = ("PROVISION:".toList ++ a ++ ['|'] ++ b ++ ['|'] ++ c ++ ['|']) ++ (d ++ '|' :: e) := by
    rw [← hline]; simp
  have n4 : ("PROVISION:".toList ++ a ++ ['|'] ++ b ++ ['|'] ++ c ++ ['|']).length
      = 10 + a.length + 1 + b.length + 1 + c.length + 1 := by
    simp only [List.length_append, hP, List.length_cons, List.length_nil]
  have h4 : indexOf line '|' (10 + a.length + 1 + b.length + 1 + c.length + 1)
      = ((10 + a.length + 1 + b.length + 1 + c.length + 1 + d.length : Nat) : Int) := by
    have := indexOf_found '|' ("PROVISION:".toList ++ a ++ ['|'] ++ b ++ ['|'] ++ c ++ ['|']) d e hd
    rw [← l4, n4] at this; exact this
  have l5 : line = ("PROVISION:".toList ++ a ++ ['|'] ++ b ++ ['|'] ++ c ++ ['|'] ++ d ++ ['|']) ++ e := by
    rw [← hline]; simp
  have n5 : ("PROVISION:".toList ++ a ++ ['|'] ++ b ++ ['|'] ++ c ++ ['|'] ++ d ++ ['|']).length
      = 10 + a.length + 1 + b.length + 1 + c.length + 1 + d.length + 1 := by
    simp only [List.length_append, hP, List.length_cons, List.length_nil]
  -- the five fields
  have f1 : substring line 10 (10 + a.length) = a := by
    have := substring_mid "PROVISION:".toList a ('|' :: (b ++ '|' :: (c ++ '|' :: (d ++ '|' :: e))))
    rw [hline, hP] at this; exact this
  have f2 : substring line (10 + a.length + 1) (10 + a.length + 1 + b.length) = b := by
    have := substring_mid ("PROVISION:".toList ++ a ++ ['|']) b ('|' :: (c ++ '|' :: (d ++ '|' :: e)))
    rw [← l2, n2] at this; exact this
  have f3 : substring line (10 + a.length + 1 + b.length + 1)
      (10 + a.length + 1 + b.length + 1 + c.length) = c := by
    have := substring_mid ("PROVISION:".toList ++ a ++ ['|'] ++ b ++ ['|']) c ('|' :: (d ++ '|' :: e))
    rw [← l3, n3] at this; exact this
  have f4 : substring line (10 + a.length + 1 + b.length + 1 + c.length + 1)
      (10 + a.length + 1 + b.length + 1 + c.length + 1 + d.length) = d := by
    have := substring_mid ("PROVISION:".toList ++ a ++ ['|'] ++ b ++ ['|'] ++ c ++ ['|']) d ('|' :: e)
    rw [← l4, n4] at this; exact this
  have f5 : substringFrom line (10 + a.length + 1 + b.length + 1 + c.length + 1 + d.length + 1) = e := by
    have := substringFrom_append
      ("PROVISION:".toList ++ a ++ ['|'] ++ b ++ ['|'] ++ c ++ ['|'] ++ d ++ ['|']) e
    rw [← l5, n5] at this; exact this
  have t1 : (((10 + a.length : Nat) : Int) + 1).toNat = 10 + a.length + 1 := by omega
  have t2 : (((10 + a.length + 1 + b.length : Nat) : Int) + 1).toNat
      = 10 + a.length + 1 + b.length + 1 := by omega
  have t3 : (((10 + a.length + 1 + b.length + 1 + c.length : Nat) : Int) + 1).toNat
      = 10 + a.length + 1 + b.length + 1 + c.length + 1 := by omega
  have t4 : (((10 + a.length + 1 + b.length + 1 + c.length + 1 + d.length : Nat) : Int) + 1).toNat
      = 10 + a.length + 1 + b.length + 1 + c.length + 1 + d.length + 1 := by omega
  unfold handleBluetoothCommand
  simp only [hstart, if_true, h1, t1, h2, t2, h3, t3, h4, t4, Int.toNat_ofNat, f1, f2, f3, f4, f5]
  rw [if_pos (by refine ⟨?_, ?_, ?_, ?_⟩ <;> omega)]
  rfl

theorem lookup_saved (st : Sys) :
    (saveWiFiCredentials st).preferences.lookup "ssid".toList = some st.globals.wifiSSID ∧
    (saveWiFiCredentials st).preferences.lookup "password".toList = some st.globals.wifiPassword ∧
    (saveWiFiCredentials st).preferences.lookup "device_uid".toList = some st.globals.deviceUID ∧
    (saveWiFiCredentials st).preferences.lookup "supabase_url".toList
      = some st.globals.supabaseUrl ∧
    (saveWiFiCredentials st).preferences.lookup "supabase_key".toList
      = some st.globals.supabaseKey := by
  simp [saveWiFiCredentials, putString, List.lookup, List.filter]

/-! ## C1: provisioning round trip -/

/-- C1: for `|`-free fields `s`, `p`, `u`, `b`, `k` and any prior state, the line
`PROVISION:s|p|u|b|k` is accepted, sets the five credential globals to the five fields,
writes the five values to the store, and `loadWiFiCredentials` on a freshly booted
device over that store restores exactly the five fields. -/
theorem provision_roundtrip (env : Env) (st : Sys) (s p u b k : Str)
    (hs : '|' ∉ s) (hp : '|' ∉ p) (hu : '|' ∉ u) (hb : '|' ∉ b) (_hk : '|' ∉ k) :
    ∃ st1,
      handleBluetoothCommand env st
        ("PROVISION:".toList ++ s ++ "|".toList ++ p ++ "|".toList ++ u ++ "|".toList ++ b
          ++ "|".toList ++ k) = some st1 ∧
      (st1.globals.wifiSSID = s ∧ st1.globals.wifiPassword = p ∧ st1.globals.deviceUID = u ∧
        st1.globals.supabaseUrl = b ∧ st1.globals.supabaseKey = k) ∧
      (st1.preferences.lookup "ssid".toList = some s ∧
        st1.preferences.lookup "password".toList = some p ∧
        st1.preferences.lookup "device_uid".toList = some u ∧
        st1.preferences.lookup "supabase_url".toList = some b ∧
        st1.preferences.lookup "supabase_key".toList = some k) ∧
      ((loadWiFiCredentials (bootSys st1.preferences)).globals.wifiSSID = s ∧
        (loadWiFiCredentials (bootSys st1.preferences)).globals.wifiPassword = p ∧
        (loadWiFiCredentials (bootSys st1.preferences)).globals.deviceUID = u ∧
        (loadWiFiCredentials (bootSys st1.preferences)).globals.supabaseUrl = b ∧
        (loadWiFiCredentials (bootSys st1.preferences)).globals.supabaseKey = k) := by
  have hline : "PROVISION:".toList ++ s ++ "|".toList ++ p ++ "|".toList ++ u ++ "|".toList ++ b
      ++ "|".toList ++ k
      = "PROVISION:".toList ++ (s ++ '|' :: (p ++ '|' :: (u ++ '|' :: (b ++ '|' :: k)))) := by
    simp
  rw [hline, handle_provision env st s p u b k hs hp hu hb]
  generalize hS : saveWiFiCredentials _ = saved
  obtain ⟨t, ht, hg, hpref, -⟩ := connectToWiFi_frame env saved
  have hlk := lookup_saved
    { serialPrintln st ("Received: ".toList ++
        ("PROVISION:".toList ++ (s ++ '|' :: (p ++ '|' :: (u ++ '|' :: (b ++ '|' :: k)))))) with
      globals := { st.globals with
        wifiSSID := s, wifiPassword := p, deviceUID := u, supabaseUrl := b, supabaseKey := k } }
  rw [hS] at hlk
  dsimp only at hlk
  have hsg : saved.globals = { st.globals with
      wifiSSID := s, wifiPassword := p, deviceUID := u, supabaseUrl := b, supabaseKey := k } := by
    rw [← hS]; rfl
  refine ⟨btPrintln t "WiFi and Supabase credentials received. Connecting...".toList, ?_, ?_, ?_, ?_⟩
  · rw [ht]
  · simp [btPrintln, hg, hsg]
  · simpa [btPrintln, hpref] using hlk
  · obtain ⟨k1, k2, k3, k4, k5⟩ := hlk
    simp only [btPrintln, hpref, loadWiFiCredentials, bootSys, getString, k1, k2, k3, k4, k5,
      and_self]

/-- C1 at a concrete line, from the power-up state with an empty store. -/
theorem provision_roundtrip_witness :
    ('|' ∉ "home".toList ∧ '|' ∉ "secret".toList ∧ '|' ∉ "dev1".toList ∧
      '|' ∉ "https://x.co".toList ∧ '|' ∉ "key".toList) ∧
    ∃ st1,
      handleBluetoothCommand quietEnv (bootSys [])
        ("PROVISION:".toList ++ "home".toList ++ "|".toList ++ "secret".toList ++ "|".toList
          ++ "dev1".toList ++ "|".toList ++ "https://x.co".toList ++ "|".toList ++ "key".toList)
        = some st1 ∧
      (st1.globals.wifiSSID = "home".toList ∧ st1.globals.wifiPassword = "secret".toList ∧
        st1.globals.deviceUID = "dev1".toList ∧ st1.globals.supabaseUrl = "https://x.co".toList ∧
        st1.globals.supabaseKey = "key".toList) ∧
      (st1.preferences.lookup "ssid".toList = some "home".toList ∧
        st1.preferences.lookup "password".toList = some "secret".toList ∧
        st1.preferences.lookup "device_uid".toList = some "dev1".toList ∧
        st1.preferences.lookup "supabase_url".toList = some "https://x.co".toList ∧
        st1.preferences.lookup "supabase_key".toList = some "key".toList) ∧
      ((loadWiFiCredentials (bootSys st1.preferences)).globals.wifiSSID = "home".toList ∧
        (loadWiFiCredentials (bootSys st1.preferences)).globals.wifiPassword = "secret".toList ∧
        (loadWiFiCredentials (bootSys st1.preferences)).globals.deviceUID = "dev1".toList ∧
        (loadWiFiCredentials (bootSys st1.preferences)).globals.supabaseUrl
          = "https://x.co".toList ∧
        (loadWiFiCredentials (bootSys st1.preferences)).globals.supabaseKey = "key".toList) :=
  ⟨by decide,
    provision_roundtrip quietEnv (bootSys []) "home".toList "secret".toList "dev1".toList
      "https://x.co".toList "key".toList (by decide) (by decide) (by decide) (by decide)
      (by decide)⟩

/-! ## C2: short provisioning lines are dropped -/

/-- A successful `indexOf` lands on an occurrence at or after `fromIndex`, and that
occurrence is one of those counted from `fromIndex` on. -/
theorem indexOf_pos_count (s : Str) (ch : Char) (fromIndex : Nat)
    (h : 0 < indexOf s ch fromIndex) :
    ∃ p : Nat, indexOf s ch fromIndex = (p : Int) ∧ fromIndex ≤ p ∧
      (s.drop fromIndex).count ch = (s.drop (p + 1)).count ch + 1 := by
  unfold indexOf at h ⊢
  split at h
  · simp at h
  · rename_i hlt
    rw [if_neg hlt]
    rcases split_cases ch (s.drop fromIndex) with hno | ⟨f, r, hfr, hf⟩
    · rw [strchr_of_not_mem ch _ hno] at h
      simp at h
    · rw [hfr, strchr_append ch f r hf]
      refine ⟨fromIndex + f.length, rfl, by omega, ?_⟩
      have hdrop : s.drop (fromIndex + f.length + 1) = r := by
        have h1 : s.drop (fromIndex + f.length + 1) = (s.drop fromIndex).drop (f.length + 1) := by
          rw [List.drop_drop, Nat.add_assoc]
        rw [h1, hfr]
        simp
      rw [hdrop]
      simp [List.count_append, List.count_eq_zero_of_not_mem hf]

theorem count_drop_le (s : Str) (ch : Char) (n : Nat) : (s.drop n).count ch ≤ s.count ch :=
  (List.drop_sublist n s).count_le ch

/-- C2: a line that starts with `PROVISION:` and holds fewer than four `|` is dropped:
the globals (so the five credentials) and the store are unchanged, `WiFi.begin` is not
called and the radio is not polled, and nothing is written to the controller. -/
theorem provision_short_dropped (env : Env) (st : Sys) (line : Str)
    (hpre : "PROVISION:".toList <+: line) (hcount : line.count '|' < 4) :
    ∃ st1, handleBluetoothCommand env st line = some st1 ∧
      st1.globals = st.globals ∧ st1.preferences = st.preferences ∧
      st1.wifiBegins = st.wifiBegins ∧ st1.statusPolls = st.statusPolls ∧
      st1.serialBT = st.serialBT := by
  have hstart : startsWith line "PROVISION:".toList = true := (startsWith_iff _ _).mpr hpre
  have hnot : ¬ (indexOf line '|' 10 > 0 ∧
      indexOf line '|' (indexOf line '|' 10 + 1).toNat > 0 ∧
      indexOf line '|' (indexOf line '|' (indexOf line '|' 10 + 1).toNat + 1).toNat > 0 ∧
      indexOf line '|'
        (indexOf line '|' (indexOf line '|' (indexOf line '|' 10 + 1).toNat + 1).toNat + 1).toNat
        > 0) := by
    rintro ⟨h1, h2, h3, h4⟩
    obtain ⟨p1, e1, -, c1⟩ := indexOf_pos_count line '|' 10 h1
    rw [e1] at h2 h3 h4
    have t1 : ((p1 : Int) + 1).toNat = p1 + 1 := by omega
    rw [t1] at h2 h3 h4
    obtain ⟨p2, e2, -, c2⟩ := indexOf_pos_count line '|' (p1 + 1) h2
    rw [e2] at h3 h4
    have t2 : ((p2 : Int) + 1).toNat = p2 + 1 := by omega
    rw [t2] at h3 h4
    obtain ⟨p3, e3, -, c3⟩ := indexOf_pos_count line '|' (p2 + 1) h3
    rw [e3] at h4
    have t3 : ((p3 : Int) + 1).toNat = p3 + 1 := by omega
    rw [t3] at h4
    obtain ⟨p4, -, -, c4⟩ := indexOf_pos_count line '|' (p3 + 1) h4
    have := count_drop_le line '|' 10
    omega
  refine ⟨serialPrintln st ("Received: ".toList ++ line), ?_, rfl, rfl, rfl, rfl, rfl⟩
  unfold handleBluetoothCommand
  simp only [hstart, if_true]
  rw [if_neg hnot]

/-- C2 at the line `PROVISION:a|b|c|d`, which holds three delimiters. -/
theorem provision_short_dropped_witness :
    ("PROVISION:".toList <+: "PROVISION:a|b|c|d".toList ∧
      "PROVISION:a|b|c|d".toList.count '|' < 4) ∧
    ∃ st1, handleBluetoothCommand quietEnv (bootSys []) "PROVISION:a|b|c|d".toList = some st1 ∧
      st1.globals = (bootSys []).globals ∧ st1.preferences = (bootSys []).preferences ∧
      st1.wifiBegins = (bootSys []).wifiBegins ∧ st1.statusPolls = (bootSys []).statusPolls ∧
      st1.serialBT = (bootSys []).serialBT :=
  ⟨⟨by decide, by decide⟩,
    provision_short_dropped quietEnv (bootSys []) "PROVISION:a|b|c|d".toList (by decide)
      (by decide)⟩

/-! ## C9: unrecognized lines are dropped -/

/-- C9: a line that starts with none of the five prefixes leaves the globals
(credentials, tank names, tank ids, count, selection) and the store unchanged and
writes nothing to the controller. -/
theorem unrecognized_dropped (env : Env) (st : Sys) (line : Str)
    (h1 : ¬ "PROVISION:".toList <+: line) (h2 : ¬ "SET_TANKS:".toList <+: line)
    (h3 : ¬ "SET_TANK_IDS:".toList <+: line) (h4 : ¬ "SET_NAME:".toList <+: line)
    (h5 : ¬ "SELECT_TANK:".toList <+: line) :
    ∃ st1, handleBluetoothCommand env st line = some st1 ∧
      st1.globals = st.globals ∧ st1.preferences = st.preferences ∧
      st1.serialBT = st.serialBT := by
  have e1 : startsWith line "PROVISION:".toList = false := by
    rw [Bool.eq_false_iff]; exact fun h => h1 ((startsWith_iff _ _).mp h)
  have e2 : startsWith line "SET_TANKS:".toList = false := by
    rw [Bool.eq_false_iff]; exact fun h => h2 ((startsWith_iff _ _).mp h)
  have e3 : startsWith line "SET_TANK_IDS:".toList = false := by
    rw [Bool.eq_false_iff]; exact fun h => h3 ((startsWith_iff _ _).mp h)
  have e4 : startsWith line "SET_NAME:".toList = false := by
    rw [Bool.eq_false_iff]; exact fun h => h4 ((startsWith_iff _ _).mp h)
  have e5 : startsWith line "SELECT_TANK:".toList = false := by
    rw [Bool.eq_false_iff]; exact fun h => h5 ((startsWith_iff _ _).mp h)
  refine ⟨serialPrintln st ("Received: ".toList ++ line), ?_, rfl, rfl, rfl⟩
  unfold handleBluetoothCommand
  simp only [e1, e2, e3, e4, e5, Bool.false_eq_true, if_false]

/-- C9 at the line `HELLO`. -/
theorem unrecognized_dropped_witness :
    (¬ "PROVISION:".toList <+: "HELLO".toList ∧ ¬ "SET_TANKS:".toList <+: "HELLO".toList ∧
      ¬ "SET_TANK_IDS:".toList <+: "HELLO".toList ∧ ¬ "SET_NAME:".toList <+: "HELLO".toList ∧
      ¬ "SELECT_TANK:".toList <+: "HELLO".toList) ∧
    ∃ st1, handleBluetoothCommand quietEnv (bootSys []) "HELLO".toList = some st1 ∧
      st1.globals = (bootSys []).globals ∧ st1.preferences = (bootSys []).preferences ∧
      st1.serialBT = (bootSys []).serialBT :=
  ⟨by decide,
    unrecognized_dropped quietEnv (bootSys []) "HELLO".toList (by decide) (by decide)
      (by decide) (by decide) (by decide)⟩

/-! ## The four registry and naming commands -/

theorem handle_setTanks (env : Env) (st : Sys) (payload : Str) :
    handleBluetoothCommand env st ("SET_TANKS:".toList ++ payload) =
      match parseTankNames st.globals payload with
      | none => none
      | some g =>
        some (btPrintln
          { serialPrintln st ("Received: ".toList ++ ("SET_TANKS:".toList ++ payload)) with
            globals := g }
          ("Tank names set: ".toList ++ intToString g.tankCount)) := by
  have e1 : startsWith ("SET_TANKS:".toList ++ payload) "PROVISION:".toList = false := rfl
  have e2 : startsWith ("SET_TANKS:".toList ++ payload) "SET_TANKS:".toList = true :=
    startsWith_append _ _
  have e3 : substringFrom ("SET_TANKS:".toList ++ payload) 10 = payload :=
    substringFrom_append "SET_TANKS:".toList payload
  unfold handleBluetoothCommand
  simp only [e1, e2, e3, Bool.false_eq_true, if_false, if_true]
  rfl

theorem handle_setTankIds (env : Env) (st : Sys) (payload : Str) :
    handleBluetoothCommand env st ("SET_TANK_IDS:".toList ++ payload) =
      match parseTankIds st.globals payload with
      | none => none
      | some g =>
        some (btPrintln
          { serialPrintln st ("Received: ".toList ++ ("SET_TANK_IDS:".toList ++ payload)) with
            globals := g }
          ("Tank IDs set: ".toList ++ intToString g.tankCount)) := by
  have e1 : startsWith ("SET_TANK_IDS:".toList ++ payload) "PROVISION:".toList = false := rfl
  have e2 : startsWith ("SET_TANK_IDS:".toList ++ payload) "SET_TANKS:".toList = false := by
    simp [startsWith, List.isPrefixOf]
  have e3 : startsWith ("SET_TANK_IDS:".toList ++ payload) "SET_TANK_IDS:".toList = true :=
    startsWith_append _ _
  have e4 : substringFrom ("SET_TANK_IDS:".toList ++ payload) 13 = payload :=
    substringFrom_append "SET_TANK_IDS:".toList payload
  unfold handleBluetoothCommand
  simp only [e1, e2, e3, e4, Bool.false_eq_true, if_false, if_true]
  rfl

theorem handle_setName (env : Env) (st : Sys) (payload : Str) :
    handleBluetoothCommand env st ("SET_NAME:".toList ++ payload) =
      some (btPrintln (serialPrintln st ("Received: ".toList ++ ("SET_NAME:".toList ++ payload)))
        ("Device name set: ".toList ++ payload)) := by
  have e1 : startsWith ("SET_NAME:".toList ++ payload) "PROVISION:".toList = false := rfl
  have e2 : startsWith ("SET_NAME:".toList ++ payload) "SET_TANKS:".toList = false := by
    simp [startsWith, List.isPrefixOf]
  have e3 : startsWith ("SET_NAME:".toList ++ payload) "SET_TANK_IDS:".toList = false := by
    simp [startsWith, List.isPrefixOf]
  have e4 : startsWith ("SET_NAME:".toList ++ payload) "SET_NAME:".toList = true :=
    startsWith_append _ _
  have e5 : substringFrom ("SET_NAME:".toList ++ payload) 9 = payload :=
    substringFrom_append "SET_NAME:".toList payload
  unfold handleBluetoothCommand
  simp only [e1, e2, e3, e4, e5, Bool.false_eq_true, if_false, if_true]

theorem handle_selectTank (env : Env) (st : Sys) (payload : Str) :
    handleBluetoothCommand env st ("SELECT_TANK:".toList ++ payload) =
      some (btPrintln
        { serialPrintln st ("Received: ".toList ++ ("SELECT_TANK:".toList ++ payload)) with
          globals := { st.globals with selectedTankId := payload } }
        ("Selected tank: ".toList ++ payload)) := by
  have e1 : startsWith ("SELECT_TANK:".toList ++ payload) "PROVISION:".toList = false := rfl
  have e2 : startsWith ("SELECT_TANK:".toList ++ payload) "SET_TANKS:".toList = false := by
    simp [startsWith, List.isPrefixOf]
  have e3 : startsWith ("SELECT_TANK:".toList ++ payload) "SET_TANK_IDS:".toList = false := by
    simp [startsWith, List.isPrefixOf]
  have e4 : startsWith ("SELECT_TANK:".toList ++ payload) "SET_NAME:".toList = false := by
    simp [startsWith, List.isPrefixOf]
  have e5 : startsWith ("SELECT_TANK:".toList ++ payload) "SELECT_TANK:".toList = true :=
    startsWith_append _ _
  have e6 : substringFrom ("SELECT_TANK:".toList ++ payload) 12 = payload :=
    substringFrom_append "SELECT_TANK:".toList payload
  unfold handleBluetoothCommand
  simp only [e1, e2, e3, e4, e5, e6, Bool.false_eq_true, if_false, if_true]
  rfl

/-! ## C5: the selection is overwritten unconditionally -/

/-- C5: for all strings `x` and `y` and every prior state, `SELECT_TANK:x` followed by
`SELECT_TANK:y` leaves `selectedTankId = y`, whatever the registry holds; every other
global (tank names, tank ids, count, credentials) and the store are unchanged. -/
theorem select_twice (env : Env) (st : Sys) (x y : Str) :
    ∃ st1 st2,
      handleBluetoothCommand env st ("SELECT_TANK:".toList ++ x) = some st1 ∧
      handleBluetoothCommand env st1 ("SELECT_TANK:".toList ++ y) = some st2 ∧
      st2.globals.selectedTankId = y ∧
      st2.globals = { st.globals with selectedTankId := y } ∧
      st2.preferences = st.preferences := by
  refine ⟨_, _, handle_selectTank env st x, handle_selectTank env _ y, rfl, rfl, rfl⟩

/-! ## Lemmas on stored tokens and joined lists -/

theorem storeTokens_getElem? (toks : List Str) :
    ∀ (a : TankArray) (i j : Nat), i + toks.length ≤ 10 →
      (storeTokens a i toks).1[j]? =
        if i ≤ j ∧ j < i + toks.length then toks[j - i]? else a.1[j]? := by
  induction toks with
  | nil =>
    intro a i j _
    have : ¬ (i ≤ j ∧ j < i) := by omega
    simp [storeTokens, this]
  | cons t ts ih =>
    intro a i j hle
    simp only [List.length_cons] at hle
    simp only [storeTokens, List.length_cons]
    rw [ih _ (i + 1) j (by omega)]
    by_cases h1 : i + 1 ≤ j ∧ j < i + 1 + ts.length
    · have h2 : i ≤ j ∧ j < i + (ts.length + 1) := by omega
      rw [if_pos h1, if_pos h2]
      have : j - i = (j - (i + 1)) + 1 := by omega
      rw [this, List.getElem?_cons_succ]
    · rw [if_neg h1]
      by_cases h3 : j = i
      · subst h3
        have h2 : j ≤ j ∧ j < j + (ts.length + 1) := by omega
        have hlt : j < a.1.length := by rw [a.2]; omega
        rw [if_pos h2]
        simp [List.getElem?_set]
        omega
      · have h2 : ¬ (i ≤ j ∧ j < i + (ts.length + 1)) := by omega
        rw [if_neg h2]
        simp [List.getElem?_set, Ne.symm h3]

theorem storeTokens_full (a : TankArray) (toks : List Str) (h : toks.length = 10) :
    (storeTokens a 0 toks).1 = toks := by
  apply List.ext_getElem?
  intro j
  rw [storeTokens_getElem? toks a 0 j (by omega)]
  by_cases hj : j < 10
  · simp [h, hj]
  · have h1 : a.1[j]? = none := List.getElem?_eq_none (by rw [a.2]; omega)
    have h2 : toks[j]? = none := List.getElem?_eq_none (by omega)
    simp [h, hj, h1, h2]

theorem tokenizeFrom_joinPipe (names : List Str) (h : ∀ x ∈ names, x ≠ [] ∧ '|' ∉ x) :
    tokenizeFrom '|' [] (joinPipe names) = names := by
  induction names with
  | nil => simp [joinPipe, tokenizeFrom]
  | cons x rest ih =>
    have hx := h x (by simp)
    cases rest with
    | nil =>
      simp only [joinPipe]
      rw [tokenizeFrom_no_delim '|' x hx.2 []]
      simp [hx.1]
    | cons y more =>
      simp only [joinPipe]
      rw [tokenizeFrom_append '|' x _ hx.2 []]
      rw [ih (fun z hz => h z (List.mem_cons_of_mem _ hz))]
      simp

theorem head?_joinPipe (names : List Str) (h : ∀ x ∈ names, x ≠ [] ∧ '|' ∉ x) :
    (joinPipe names).head? ≠ some '|' := by
  cases names with
  | nil => simp [joinPipe]
  | cons x rest =>
    have hx := h x (by simp)
    cases x with
    | nil => exact absurd rfl hx.1
    | cons c cs =>
      have hc : c ≠ '|' := by
        intro e; apply hx.2; simp [e]
      cases rest with
      | nil => simpa [joinPipe] using hc
      | cons y more => simpa [joinPipe] using hc

theorem parsedTokens_joinPipe (names : List Str) (h : ∀ x ∈ names, x ≠ [] ∧ '|' ∉ x) :
    parsedTokens (joinPipe names) = names := by
  simp [parsedTokens, head?_joinPipe names h, referenceTokens, tokenizeFrom_joinPipe names h]

/-- Effect of any `SET_TANKS:` line: the first ten parsed tokens are stored as names,
`tankCount` is their number, the store is untouched and one line is acknowledged. -/
theorem handle_setTanks_effect (env : Env) (st : Sys) (payload : Str) :
    ∃ st1, handleBluetoothCommand env st ("SET_TANKS:".toList ++ payload) = some st1 ∧
      st1.globals = { st.globals with
        tankNames := storeTokens st.globals.tankNames 0 ((parsedTokens payload).take 10)
        tankCount := (((parsedTokens payload).take 10).length : Int) } ∧
      st1.preferences = st.preferences ∧
      ∃ line, st1.serialBT = st.serialBT ++ [Out.println line] := by
  rw [handle_setTanks, parseTankNames_spec]
  exact ⟨_, rfl, rfl, rfl, _, rfl⟩

/-- Effect of any `SET_TANK_IDS:` line: the first ten parsed tokens are stored as ids,
no other global changes, the store is untouched and one line is acknowledged. -/
theorem handle_setTankIds_effect (env : Env) (st : Sys) (payload : Str) :
    ∃ st1, handleBluetoothCommand env st ("SET_TANK_IDS:".toList ++ payload) = some st1 ∧
      st1.globals = { st.globals with
        tankIds := storeTokens st.globals.tankIds 0 ((parsedTokens payload).take 10) } ∧
      st1.preferences = st.preferences ∧
      ∃ line, st1.serialBT = st.serialBT ++ [Out.println line] := by
  rw [handle_setTankIds, parseTankIds_spec]
  exact ⟨_, rfl, rfl, rfl, _, rfl⟩

/-! ## C3: names and ids are aligned by index -/

/-- C3: for `1 ≤ n ≤ 10`, `n` non-empty `|`-free names and `n` non-empty `|`-free ids,
and any prior state, dispatching `SET_TANKS:` with the joined names and then
`SET_TANK_IDS:` with the joined ids leaves `tankCount = n` and, for every `i < n`,
`tankNames[i] = names[i]` and `tankIds[i] = ids[i]`. -/
theorem set_tanks_then_ids (env : Env) (st : Sys) (names ids : List Str) (n : Nat)
    (_hn1 : 1 ≤ n) (hn10 : n ≤ 10) (hnl : names.length = n) (hil : ids.length = n)
    (hnames : ∀ x ∈ names, x ≠ [] ∧ '|' ∉ x) (hids : ∀ x ∈ ids, x ≠ [] ∧ '|' ∉ x) :
    ∃ st1 st2,
      handleBluetoothCommand env st ("SET_TANKS:".toList ++ joinPipe names) = some st1 ∧
      handleBluetoothCommand env st1 ("SET_TANK_IDS:".toList ++ joinPipe ids) = some st2 ∧
      st2.globals.tankCount = (n : Int) ∧
      ∀ i, i < n →
        st2.globals.tankNames.1[i]? = names[i]? ∧ st2.globals.tankIds.1[i]? = ids[i]? := by
  have htn : (parsedTokens (joinPipe names)).take 10 = names := by
    rw [parsedTokens_joinPipe names hnames]
    exact List.take_of_length_le (by omega)
  have hti : (parsedTokens (joinPipe ids)).take 10 = ids := by
    rw [parsedTokens_joinPipe ids hids]
    exact List.take_of_length_le (by omega)
  obtain ⟨st1, h1, g1, -⟩ := handle_setTanks_effect env st (joinPipe names)
  obtain ⟨st2, h2, g2, -⟩ := handle_setTankIds_effect env st1 (joinPipe ids)
  rw [htn] at g1
  rw [hti] at g2
  refine ⟨st1, st2, h1, h2, ?_, ?_⟩
  · simp [g2, g1, hnl]
  · intro i hi
    constructor
    · rw [g2]
      simp only []
      rw [g1]
      simp only []
      rw [storeTokens_getElem? names _ 0 i (by omega)]
      simp [hnl, hi]
    · rw [g2]
      simp only []
      rw [storeTokens_getElem? ids _ 0 i (by omega)]
      simp [hil, hi]

/-- C3 at the lines `SET_TANKS:a|b|c` and `SET_TANK_IDS:1|2|3`. -/
theorem set_tanks_then_ids_witness :
    (1 ≤ 3 ∧ 3 ≤ 10 ∧ ["a".toList, "b".toList, "c".toList].length = 3 ∧
      ["1".toList, "2".toList, "3".toList].length = 3 ∧
      (∀ x ∈ ["a".toList, "b".toList, "c".toList], x ≠ [] ∧ '|' ∉ x) ∧
      (∀ x ∈ ["1".toList, "2".toList, "3".toList], x ≠ [] ∧ '|' ∉ x)) ∧
    ("SET_TANKS:".toList ++ joinPipe ["a".toList, "b".toList, "c".toList]
        = "SET_TANKS:a|b|c".toList ∧
      "SET_TANK_IDS:".toList ++ joinPipe ["1".toList, "2".toList, "3".toList]
        = "SET_TANK_IDS:1|2|3".toList) ∧
    ∃ st1 st2,
      handleBluetoothCommand quietEnv (bootSys [])
        ("SET_TANKS:".toList ++ joinPipe ["a".toList, "b".toList, "c".toList]) = some st1 ∧
      handleBluetoothCommand quietEnv st1
        ("SET_TANK_IDS:".toList ++ joinPipe ["1".toList, "2".toList, "3".toList]) = some st2 ∧
      st2.globals.tankCount = ((3 : Nat) : Int) ∧
      ∀ i, i < 3 →
        st2.globals.tankNames.1[i]? = ["a".toList, "b".toList, "c".toList][i]? ∧
        st2.globals.tankIds.1[i]? = ["1".toList, "2".toList, "3".toList][i]? :=
  ⟨by decide, by decide,
    set_tanks_then_ids quietEnv (bootSys []) ["a".toList, "b".toList, "c".toList]
      ["1".toList, "2".toList, "3".toList] 3 (by decide) (by decide) (by decide) (by decide)
      (by decide) (by decide)⟩

/-! ## C4: truncation to ten names -/

/-- C4: for more than ten non-empty `|`-free names joined by `|`, `parseTankNames`
leaves `tankCount = 10` and the ten slots of `tankNames` equal to the first ten names
in order; no other global changes, so the later names are stored nowhere. -/
theorem parseTankNames_truncates (g : Globals) (names : List Str) (hlen : 10 < names.length)
    (hnames : ∀ x ∈ names, x ≠ [] ∧ '|' ∉ x) :
    ∃ g1, parseTankNames g (joinPipe names) = some g1 ∧
      g1.tankCount = 10 ∧ g1.tankNames.1 = names.take 10 ∧
      g1 = { g with tankNames := g1.tankNames, tankCount := 10 } := by
  have hl : (names.take 10).length = 10 := by
    rw [List.length_take]; omega
  have hspec := parseTankNames_spec g (joinPipe names)
  rw [parsedTokens_joinPipe names hnames] at hspec
  refine ⟨_, hspec, ?_, ?_, ?_⟩
  · simp [hl]
  · exact storeTokens_full _ _ hl
  · simp [hl]

/-- C4 at the payload `1|2|3|4|5|6|7|8|9|10|11|12`. -/
theorem parseTankNames_truncates_witness :
    (10 < ["1".toList, "2".toList, "3".toList, "4".toList, "5".toList, "6".toList,
        "7".toList, "8".toList, "9".toList, "10".toList, "11".toList, "12".toList].length ∧
      ∀ x ∈ ["1".toList, "2".toList, "3".toList, "4".toList, "5".toList, "6".toList,
        "7".toList, "8".toList, "9".toList, "10".toList, "11".toList, "12".toList],
        x ≠ [] ∧ '|' ∉ x) ∧
    (joinPipe ["1".toList, "2".toList, "3".toList, "4".toList, "5".toList, "6".toList,
        "7".toList, "8".toList, "9".toList, "10".toList, "11".toList, "12".toList]
      = "1|2|3|4|5|6|7|8|9|10|11|12".toList) ∧
    ∃ g1, parseTankNames initialGlobals
        (joinPipe ["1".toList, "2".toList, "3".toList, "4".toList, "5".toList, "6".toList,
          "7".toList, "8".toList, "9".toList, "10".toList, "11".toList, "12".toList]) = some g1 ∧
      g1.tankCount = 10 ∧
      g1.tankNames.1 = List.take 10 ["1".toList, "2".toList, "3".toList, "4".toList,
        "5".toList, "6".toList, "7".toList, "8".toList, "9".toList, "10".toList, "11".toList,
        "12".toList] ∧
      g1 = { initialGlobals with tankNames := g1.tankNames, tankCount := 10 } :=
  ⟨by decide, by decide,
    parseTankNames_truncates initialGlobals
      ["1".toList, "2".toList, "3".toList, "4".toList, "5".toList, "6".toList,
        "7".toList, "8".toList, "9".toList, "10".toList, "11".toList, "12".toList]
      (by decide) (by decide)⟩

/-! ## C8: the tokenizer against the reference tokenization -/

/-- C8 at the payload `|a`: the reference tokenization yields the two fields `""` and
`"a"`, while `parseTankNames` stores the single name `|a`, delimiter included, because
its loop guard `pipePos > 0` treats a delimiter found at index 0 as not found. -/
theorem parseTankNames_leading_delimiter :
    (referenceTokens "|a".toList).take 10 = [[], "a".toList] ∧
    (parseTankNames initialGlobals "|a".toList).map
        (fun g => (g.tankCount, g.tankNames.1.take g.tankCount.toNat))
      = some (1, ["|a".toList]) := by
  decide

theorem storeTokens_take (a : TankArray) (toks : List Str) (h : toks.length ≤ 10) :
    (storeTokens a 0 toks).1.take toks.length = toks := by
  apply List.ext_getElem?
  intro j
  rw [List.getElem?_take]
  by_cases hj : j < toks.length
  · rw [if_pos hj, storeTokens_getElem? toks a 0 j (by omega)]
    simp [hj]
  · rw [if_neg hj]
    exact (List.getElem?_eq_none (by omega)).symm

/-- The tokenizer of `parseTankNames` refines the reference tokenization on every
payload that does not begin with the delimiter: the names in `tankNames[0..tankCount)`
are then the first ten reference tokens. -/
theorem parseTankNames_refines_reference (g : Globals) (payload : Str)
    (h : payload.head? ≠ some '|') :
    ∃ g1, parseTankNames g payload = some g1 ∧
      g1.tankNames.1.take g1.tankCount.toNat = (referenceTokens payload).take 10 := by
  have hspec := parseTankNames_spec g payload
  have hp : parsedTokens payload = referenceTokens payload := by simp [parsedTokens, h]
  rw [hp] at hspec
  refine ⟨_, hspec, ?_⟩
  simp only [Int.toNat_ofNat]
  exact storeTokens_take _ _ (by rw [List.length_take]; omega)

/-! ## C10: acknowledgement lines -/

theorem exists_field (ch : Char) (l : Str) (h : 1 ≤ l.count ch) :
    ∃ f r, l = f ++ ch :: r ∧ ch ∉ f ∧ r.count ch = l.count ch - 1 := by
  rcases split_cases ch l with hno | ⟨f, r, e, hf⟩
  · rw [List.count_eq_zero_of_not_mem hno] at h
    omega
  · refine ⟨f, r, e, hf, ?_⟩
    rw [e]
    simp [List.count_append, List.count_eq_zero_of_not_mem hf]

/-- A line that starts with `PROVISION:` and holds at least four delimiters is the
prefix followed by four delimiter-free fields, each closed by a delimiter, and a rest. -/
theorem provision_fields (line : Str) (hpre : "PROVISION:".toList <+: line)
    (hcount : 4 ≤ line.count '|') :
    ∃ a b c d e, line = "PROVISION:".toList ++ (a ++ '|' :: (b ++ '|' :: (c ++ '|' :: (d ++ '|' :: e))))
      ∧ '|' ∉ a ∧ '|' ∉ b ∧ '|' ∉ c ∧ '|' ∉ d := by
  obtain ⟨rest, hrest⟩ := hpre
  have hc0 : rest.count '|' = line.count '|' := by
    rw [← hrest, List.count_append]
    have : "PROVISION:".toList.count '|' = 0 := by decide
    omega
  obtain ⟨a, r1, e1, ha, c1⟩ := exists_field '|' rest (by omega)
  obtain ⟨b, r2, e2, hb, c2⟩ := exists_field '|' r1 (by omega)
  obtain ⟨c, r3, e3, hc, c3⟩ := exists_field '|' r2 (by omega)
  obtain ⟨d, r4, e4, hd, -⟩ := exists_field '|' r3 (by omega)
  exact ⟨a, b, c, d, r4, by rw [← hrest, e1, e2, e3, e4], ha, hb, hc, hd⟩

theorem connectToWiFi_cases (env : Env) (s : Sys) (r : Option Sys)
    (hr : connectToWiFi env s = r) :
    ∃ s1, r = some s1 ∧
      s1.globals = s.globals ∧ s1.preferences = s.preferences ∧
      s1.analogReads = s.analogReads ∧ s1.timeCalls = s.timeCalls ∧ s1.posts = s.posts ∧
      (s.globals.wifiSSID = [] → s1 = s) ∧
      (s.globals.wifiSSID ≠ [] →
        s1.wifiBegins = s.wifiBegins ++ [(s.globals.wifiSSID, s.globals.wifiPassword)] ∧
        ∃ line, s1.serialBT = s.serialBT ++ [Out.println line]) := by
  obtain ⟨s1, h1, hrest⟩ := connectToWiFi_frame env s
  exact ⟨s1, hr.symm.trans h1, hrest⟩

/-- The lines an accepted `PROVISION:` line writes to the controller: the
acknowledgement, preceded by the outcome line of `connectToWiFi` when the SSID field
is not empty. -/
theorem provision_lines (env : Env) (st : Sys) (line : Str)
    (hpre : "PROVISION:".toList <+: line) (hcount : 4 ≤ line.count '|') :
    ∃ st1, handleBluetoothCommand env st line = some st1 ∧
      (st1.globals.wifiSSID = [] →
        st1.serialBT = st.serialBT ++
          [Out.println "WiFi and Supabase credentials received. Connecting...".toList]) ∧
      (st1.globals.wifiSSID ≠ [] →
        ∃ outcome, st1.serialBT = st.serialBT ++
          [Out.println outcome,
            Out.println "WiFi and Supabase credentials received. Connecting...".toList]) := by
  obtain ⟨a, b, c, d, e, hline, ha, hb, hc, hd⟩ := provision_fields line hpre hcount
  rw [hline, handle_provision env st a b c d e ha hb hc hd]
  generalize hX : connectToWiFi env _ = r
  obtain ⟨t, hr, hg, -, -, -, -, hempty, hfull⟩ := connectToWiFi_cases env _ r hX
  subst hr
  simp only [saveWiFiCredentials, serialPrintln] at hg hempty hfull
  refine ⟨_, rfl, ?_, ?_⟩
  · intro hs
    simp only [btPrintln, hg] at hs
    rw [hempty hs]
    simp [btPrintln, saveWiFiCredentials, serialPrintln]
  · intro hs
    simp only [btPrintln, hg] at hs
    obtain ⟨-, outcome, hout⟩ := hfull hs
    exact ⟨outcome, by simp [btPrintln, hout]⟩

theorem other_command_not_provision (p rest : Str)
    (h : startsWith (p ++ rest) "PROVISION:".toList = false) :
    ¬ "PROVISION:".toList <+: p ++ rest := by
  intro hp
  rw [(startsWith_iff _ _).mpr hp] at h
  exact Bool.noConfusion h

/-- C10 as stated fails: from the power-up state, with a radio that never reports a
link, the accepted line `PROVISION:a|b|c|d|e` writes two lines to the controller, the
outcome line of `connectToWiFi` and then the acknowledgement. -/
theorem provision_writes_two_lines :
    ("PROVISION:".toList <+: "PROVISION:a|b|c|d|e".toList ∧
      4 ≤ "PROVISION:a|b|c|d|e".toList.count '|') ∧
    (handleBluetoothCommand quietEnv (bootSys []) "PROVISION:a|b|c|d|e".toList).map
        (fun t => t.serialBT)
      = some [Out.println "WiFi connection failed!".toList,
          Out.println "WiFi and Supabase credentials received. Connecting...".toList] := by
  decide

/-- C10 (amended): for every prior state, every radio behaviour and every successful
recognized command (a `PROVISION:` line with its four delimiters, or any `SET_TANKS:`,
`SET_TANK_IDS:`, `SET_NAME:` or `SELECT_TANK:` line), `handleBluetoothCommand` returns
and writes exactly one line to the controller, except that an accepted `PROVISION:`
line whose SSID field is not empty writes exactly two lines. -/
theorem ack_line_count (env : Env) (st : Sys) (line : Str)
    (h : ("PROVISION:".toList <+: line ∧ 4 ≤ line.count '|') ∨
      "SET_TANKS:".toList <+: line ∨ "SET_TANK_IDS:".toList <+: line ∨
      "SET_NAME:".toList <+: line ∨ "SELECT_TANK:".toList <+: line) :
    ∃ (st1 : Sys) (written : List Str), handleBluetoothCommand env st line = some st1 ∧
      st1.serialBT = st.serialBT ++ written.map Out.println ∧
      (("PROVISION:".toList <+: line ∧ st1.globals.wifiSSID ≠ []) → written.length = 2) ∧
      (¬ ("PROVISION:".toList <+: line ∧ st1.globals.wifiSSID ≠ []) → written.length = 1) := by
  rcases h with ⟨hpre, hcount⟩ | h | h | h | h
  · obtain ⟨st1, h1, hempty, hfull⟩ := provision_lines env st line hpre hcount
    by_cases hs : st1.globals.wifiSSID = []
    · exact ⟨st1, ["WiFi and Supabase credentials received. Connecting...".toList], h1,
        by simpa using hempty hs, fun hh => absurd hs hh.2, fun _ => rfl⟩
    · obtain ⟨outcome, hout⟩ := hfull hs
      exact ⟨st1, [outcome, "WiFi and Supabase credentials received. Connecting...".toList],
        h1, by simpa using hout, fun _ => rfl, fun hh => absurd ⟨hpre, hs⟩ hh⟩
  · obtain ⟨rest, rfl⟩ := h
    obtain ⟨st1, h1, -, -, l, hl⟩ := handle_setTanks_effect env st rest
    exact ⟨st1, [l], h1, by simpa using hl,
      fun hh => absurd hh.1 (other_command_not_provision _ rest rfl), fun _ => rfl⟩
  · obtain ⟨rest, rfl⟩ := h
    obtain ⟨st1, h1, -, -, l, hl⟩ := handle_setTankIds_effect env st rest
    exact ⟨st1, [l], h1, by simpa using hl,
      fun hh => absurd hh.1 (other_command_not_provision _ rest rfl), fun _ => rfl⟩
  · obtain ⟨rest, rfl⟩ := h
    exact ⟨_, ["Device name set: ".toList ++ rest], handle_setName env st rest, rfl,
      fun hh => absurd hh.1 (other_command_not_provision _ rest rfl), fun _ => rfl⟩
  · obtain ⟨rest, rfl⟩ := h
    exact ⟨_, ["Selected tank: ".toList ++ rest], handle_selectTank env st rest, rfl,
      fun hh => absurd hh.1 (other_command_not_provision _ rest rfl), fun _ => rfl⟩

/-- C10 (amended) at the accepted line `PROVISION:a|b|c|d|e`. -/
theorem ack_line_count_witness :
    (("PROVISION:".toList <+: "PROVISION:a|b|c|d|e".toList ∧
        4 ≤ "PROVISION:a|b|c|d|e".toList.count '|') ∨
      "SET_TANKS:".toList <+: "PROVISION:a|b|c|d|e".toList ∨
      "SET_TANK_IDS:".toList <+: "PROVISION:a|b|c|d|e".toList ∨
      "SET_NAME:".toList <+: "PROVISION:a|b|c|d|e".toList ∨
      "SELECT_TANK:".toList <+: "PROVISION:a|b|c|d|e".toList) ∧
    ∃ (st1 : Sys) (written : List Str),
      handleBluetoothCommand quietEnv (bootSys []) "PROVISION:a|b|c|d|e".toList = some st1 ∧
      st1.serialBT = (bootSys []).serialBT ++ written.map Out.println ∧
      (("PROVISION:".toList <+: "PROVISION:a|b|c|d|e".toList ∧ st1.globals.wifiSSID ≠ []) →
        written.length = 2) ∧
      (¬ ("PROVISION:".toList <+: "PROVISION:a|b|c|d|e".toList ∧ st1.globals.wifiSSID ≠ []) →
        written.length = 1) :=
  ⟨Or.inl (by decide),
    ack_line_count quietEnv (bootSys []) "PROVISION:a|b|c|d|e".toList (Or.inl (by decide))⟩

/-! ## C6: no upload without a link or without a selection -/

/-- `handleBluetoothCommand` returns on every line, reads no sensor, does not ask the
time and posts nothing. -/
theorem handle_frame (env : Env) (st : Sys) (line : Str) :
    ∃ st1, handleBluetoothCommand env st line = some st1 ∧
      st1.analogReads = st.analogReads ∧ st1.timeCalls = st.timeCalls ∧
      st1.posts = st.posts := by
  unfold handleBluetoothCommand
  dsimp only
  by_cases h1 : startsWith line "PROVISION:".toList = true
  · rw [if_pos h1]
    split_ifs with hc
    · generalize hX : connectToWiFi env _ = r
      obtain ⟨t, hr, -, -, har, htc, hpo, -⟩ := connectToWiFi_cases env _ r hX
      subst hr
      exact ⟨_, rfl, by simpa [btPrintln] using har, by simpa [btPrintln] using htc,
        by simpa [btPrintln] using hpo⟩
    · exact ⟨_, rfl, rfl, rfl, rfl⟩
  · rw [if_neg h1]
    by_cases h2 : startsWith line "SET_TANKS:".toList = true
    · rw [if_pos h2, parseTankNames_spec]
      exact ⟨_, rfl, rfl, rfl, rfl⟩
    · rw [if_neg h2]
      by_cases h3 : startsWith line "SET_TANK_IDS:".toList = true
      · rw [if_pos h3, parseTankIds_spec]
        exact ⟨_, rfl, rfl, rfl, rfl⟩
      · rw [if_neg h3]
        by_cases h4 : startsWith line "SET_NAME:".toList = true
        · rw [if_pos h4]
          exact ⟨_, rfl, rfl, rfl, rfl⟩
        · rw [if_neg h4]
          by_cases h5 : startsWith line "SELECT_TANK:".toList = true
          · rw [if_pos h5]
            exact ⟨_, rfl, rfl, rfl, rfl⟩
          · rw [if_neg h5]
            exact ⟨_, rfl, rfl, rfl, rfl⟩

/-- C6: every iteration of `loop` returns, and if, after the at most one command
handled in it, the radio does not report an active link or `selectedTankId` is empty,
then the iteration ends with the poll and `delay(100)` only: `sendSensorReadings` is
not called, no sensor is read and no POST is issued in that iteration. -/
theorem loop_no_upload (env : Env) (incoming : Option Str) (st : Sys) :
    ∃ mid st1, loopCommand env incoming st = some mid ∧ loop env incoming st = some st1 ∧
      ((env.radio mid.statusPolls = false ∨ mid.globals.selectedTankId = []) →
        st1 = delay { mid with statusPolls := mid.statusPolls + 1 } 100 ∧
        st1.analogReads = st.analogReads ∧ st1.posts = st.posts) := by
  have hmid : ∃ mid, loopCommand env incoming st = some mid ∧
      mid.analogReads = st.analogReads ∧ mid.posts = st.posts := by
    cases incoming with
    | none => exact ⟨st, rfl, rfl, rfl⟩
    | some command =>
      obtain ⟨mid, hm, har, -, hpo⟩ := handle_frame env st (trim command)
      exact ⟨mid, hm, har, hpo⟩
  obtain ⟨mid, hm, har, hpo⟩ := hmid
  refine ⟨mid, loopTelemetry env mid, hm, by simp [loop, hm], ?_⟩
  intro hcond
  have hnot : ¬ (env.radio mid.statusPolls = true ∧ mid.globals.selectedTankId.length > 0) := by
    rintro ⟨hr, hs⟩
    rcases hcond with h | h
    · rw [h] at hr; exact Bool.noConfusion hr
    · rw [h] at hs; simp at hs
  have heq : loopTelemetry env mid = delay { mid with statusPolls := mid.statusPolls + 1 } 100 := by
    simp only [loopTelemetry, wifiStatusConnected]
    rw [if_neg hnot]
  rw [heq]
  exact ⟨rfl, har, hpo⟩

/-! ## C7: the telemetry payload -/

/-- C7: in every state and for all sensor readings, `sendSensorReadings` hands exactly
one request to the HTTP client, and its JSON object has exactly the six keys
`device_uid`, `tank_id`, `temperature`, `ph`, `tds`, `recorded_at`, each once, with
`device_uid` equal to the stored `deviceUID` and `tank_id` equal to the stored
`selectedTankId`. -/
theorem payload_keys (env : Env) (st : Sys) :
    ∃ req, (sendSensorReadings env st).posts = st.posts ++ [req] ∧
      req.body.map Prod.fst =
        ["device_uid".toList, "tank_id".toList, "temperature".toList, "ph".toList,
          "tds".toList, "recorded_at".toList] ∧
      req.body.lookup "device_uid".toList = some (JsonValue.str st.globals.deviceUID) ∧
      req.body.lookup "tank_id".toList = some (JsonValue.str st.globals.selectedTankId) := by
  have hk : ∀ (d u : Str) (t p q : Reading) (now : Int),
      let doc := jsonSet (jsonSet (jsonSet (jsonSet (jsonSet (jsonSet []
        "device_uid".toList (JsonValue.str d)) "tank_id".toList (JsonValue.str u))
        "temperature".toList (JsonValue.num t)) "ph".toList (JsonValue.num p))
        "tds".toList (JsonValue.num q)) "recorded_at".toList (JsonValue.time now)
      doc = [("device_uid".toList, JsonValue.str d), ("tank_id".toList, JsonValue.str u),
        ("temperature".toList, JsonValue.num t), ("ph".toList, JsonValue.num p),
        ("tds".toList, JsonValue.num q), ("recorded_at".toList, JsonValue.time now)] := by
    intro d u t p q now
    simp [jsonSet]
  unfold sendSensorReadings
  simp only [readTemperature, readPH, readTDS, analogRead, wifiGetTime, httpPost, hk]
  split_ifs
  · refine ⟨_, rfl, ?_, ?_, ?_⟩ <;> simp [List.lookup]
  · refine ⟨_, rfl, ?_, ?_, ?_⟩ <;> simp [List.lookup]

/-! ## The polling loop of the network connector -/

/-- The state in which the polling loop ends after `j` waits. -/
theorem connectLoop_polls (env : Env) :
    ∀ (fuel : Nat) (s : Sys) (attempts : Int), 0 ≤ attempts → attempts ≤ 20 →
      (20 - attempts).toNat < fuel →
      ∃ j : Nat, attempts + (j : Int) ≤ 20 ∧
        (∀ i, i < j → env.radio (s.statusPolls + i) = false) ∧
        (attempts + (j : Int) < 20 → env.radio (s.statusPolls + j) = true) ∧
        connectLoop env fuel s attempts =
          some ({ s with
            statusPolls := s.statusPolls + j + 1
            delays := s.delays ++ List.replicate j 1000
            serial := s.serial ++ List.replicate j (Out.print ".".toList) },
            attempts + (j : Int)) := by
  intro fuel
  induction fuel with
  | zero => intro s attempts _ _ h; omega
  | succ fuel ih =>
    intro s attempts h0 h20 hfuel
    by_cases hc : env.radio s.statusPolls = false ∧ attempts < 20
    · obtain ⟨j, hj, hfalse, htrue, hloop⟩ := ih
        (serialPrint (delay { s with statusPolls := s.statusPolls + 1 } 1000) ".".toList)
        (attempts + 1) (by omega) (by omega) (by omega)
      simp only [serialPrint, delay] at hfalse htrue hloop
      refine ⟨j + 1, by push_cast; omega, ?_, ?_, ?_⟩
      · intro i hi
        cases i with
        | zero => simpa using hc.1
        | succ i =>
          have := hfalse i (by omega)
          rw [← this]; congr 1; omega
      · intro hlt
        have := htrue (by push_cast at hlt; omega)
        rw [← this]; congr 1; omega
      · simp only [connectLoop, wifiStatusConnected]
        rw [if_pos (by simpa using hc)]
        simp only [serialPrint, delay]
        rw [hloop]
        simp only [Option.some.injEq, Prod.mk.injEq]
        refine ⟨?_, by push_cast; omega⟩
        simp [List.replicate_succ, Nat.add_assoc, Nat.add_comm 1 j]
    · refine ⟨0, by simpa using h20, ?_, ?_, ?_⟩
      · intro i hi; omega
      · intro hlt
        by_contra hne
        exact hc ⟨by simpa using hne, by simpa using hlt⟩
      · simp only [connectLoop, wifiStatusConnected]
        rw [if_neg (by simpa using hc)]
        simp

theorem connectLoop_polls_cases (env : Env) (s : Sys) (r : Option (Sys × Int))
    (hr : connectLoop env 21 s 0 = r) :
    ∃ j : Nat, j ≤ 20 ∧
      (∀ i, i < j → env.radio (s.statusPolls + i) = false) ∧
      (j < 20 → env.radio (s.statusPolls + j) = true) ∧
      r = some ({ s with
        statusPolls := s.statusPolls + j + 1
        delays := s.delays ++ List.replicate j 1000
        serial := s.serial ++ List.replicate j (Out.print ".".toList) }, (j : Int)) := by
  obtain ⟨j, hj, hfalse, htrue, hloop⟩ :=
    connectLoop_polls env 21 s 0 (by decide) (by decide) (by decide)
  refine ⟨j, by omega, hfalse, fun h => htrue (by omega), ?_⟩
  rw [← hr, hloop]
  simp

/-- What `connectToWiFi` does with a non-empty SSID: after `WiFi.begin` the loop makes
`j ≤ 20` waits, where the polls before the `j`-th report no link and, when `j < 20`,
the `j`-th reports one; one more poll then decides the line sent to the controller. -/
theorem connectToWiFi_outcome (env : Env) (s : Sys) (hs : s.globals.wifiSSID ≠ []) :
    ∃ (s1 : Sys) (j : Nat), connectToWiFi env s = some s1 ∧ j ≤ 20 ∧
      (∀ i, i < j → env.radio (s.statusPolls + i) = false) ∧
      (j < 20 → env.radio (s.statusPolls + j) = true) ∧
      s1.delays = s.delays ++ List.replicate j 1000 ∧
      s1.statusPolls = s.statusPolls + j + 2 ∧
      s1.serialBT = s.serialBT ++
        [Out.println (if env.radio (s.statusPolls + j + 1) = true
          then "WiFi connected successfully!".toList else "WiFi connection failed!".toList)] := by
  have hlen : ¬ s.globals.wifiSSID.length = 0 := by
    simpa [List.length_eq_zero] using hs
  unfold connectToWiFi
  rw [if_neg hlen]
  dsimp only
  generalize hX : connectLoop env 21 _ 0 = r
  obtain ⟨j, hj, hfalse, htrue, hr⟩ := connectLoop_polls_cases env _ r hX
  subst hr
  simp only [serialPrintln] at hfalse htrue
  simp only [wifiStatusConnected, serialPrintln]
  by_cases hfin : env.radio (s.statusPolls + j + 1) = true
  · rw [if_pos hfin]
    exact ⟨_, j, rfl, hj, hfalse, htrue, by simp [btPrintln], by simp [btPrintln],
      by simp [btPrintln, hfin]⟩
  · rw [if_neg hfin]
    exact ⟨_, j, rfl, hj, hfalse, htrue, by simp [btPrintln], by simp [btPrintln],
      by simp [btPrintln, hfin]⟩

/-! ## C12: the reported outcome -/

/-- C12 as stated fails: with the SSID `home` and a radio that reports a link at the
first poll only, the loop of `connectToWiFi` ends at once on the reported link, the
poll that follows reports no link, and the outcome sent to the controller is
`WiFi connection failed!`. -/
theorem connect_failed_after_reported_link :
    flakyEnv.radio 0 = true ∧
    (connectToWiFi flakyEnv
        { bootSys [] with globals := { initialGlobals with wifiSSID := "home".toList } }).map
        (fun t => (t.serialBT, t.delays, t.statusPolls))
      = some ([Out.println "WiFi connection failed!".toList], [], 2) := by
  decide

/-- C12 (amended): for every non-empty SSID and every sequence of status reports,
`connectToWiFi` returns after a loop of `j ≤ 20` waits that ends at the first poll
reporting a link or once 20 waits are done, and it reports `WiFi connected
successfully!` if the one poll made after the loop reports an active link and
`WiFi connection failed!` otherwise. When a reported link stays up, that is the case
exactly when one of the 22 polls that can be made reports a link. -/
theorem connect_outcome_by_last_poll (env : Env) (s : Sys) (hs : s.globals.wifiSSID ≠ []) :
    ∃ (s1 : Sys) (j : Nat), connectToWiFi env s = some s1 ∧ j ≤ 20 ∧
      (∀ i, i < j → env.radio (s.statusPolls + i) = false) ∧
      (j < 20 → env.radio (s.statusPolls + j) = true) ∧
      s1.statusPolls = s.statusPolls + j + 2 ∧
      s1.serialBT = s.serialBT ++
        [Out.println (if env.radio (s.statusPolls + j + 1) = true
          then "WiFi connected successfully!".toList else "WiFi connection failed!".toList)] ∧
      ((∀ n, env.radio n = true → env.radio (n + 1) = true) →
        (env.radio (s.statusPolls + j + 1) = true ↔
          ∃ i, i ≤ 21 ∧ env.radio (s.statusPolls + i) = true)) := by
  obtain ⟨s1, j, h1, hj, hfalse, htrue, -, hpolls, hbt⟩ := connectToWiFi_outcome env s hs
  refine ⟨s1, j, h1, hj, hfalse, htrue, hpolls, hbt, ?_⟩
  intro hstable
  constructor
  · intro h
    exact ⟨j + 1, by omega, h⟩
  · rintro ⟨i, hi, hlink⟩
    by_cases hj20 : j < 20
    · exact hstable _ (htrue hj20)
    · have hj' : j = 20 := by omega
      subst hj'
      by_cases hi20 : i < 20
      · rw [hfalse i hi20] at hlink
        exact Bool.noConfusion hlink
      · by_cases hi' : i = 20
        · subst hi'
          exact hstable _ hlink
        · have : i = 21 := by omega
          subst this
          exact hlink

/-- C12 (amended) at the SSID `home` with a radio that never reports a link. -/
theorem connect_outcome_by_last_poll_witness :
    ({ bootSys [] with globals := { initialGlobals with wifiSSID := "home".toList } } : Sys
      ).globals.wifiSSID ≠ [] ∧
    ∃ (s1 : Sys) (j : Nat),
      connectToWiFi quietEnv
        { bootSys [] with globals := { initialGlobals with wifiSSID := "home".toList } }
        = some s1 ∧ j ≤ 20 ∧
      (∀ i, i < j → quietEnv.radio (0 + i) = false) ∧
      (j < 20 → quietEnv.radio (0 + j) = true) ∧
      s1.statusPolls = 0 + j + 2 ∧
      s1.serialBT = [] ++
        [Out.println (if quietEnv.radio (0 + j + 1) = true
          then "WiFi connected successfully!".toList else "WiFi connection failed!".toList)] ∧
      ((∀ n, quietEnv.radio n = true → quietEnv.radio (n + 1) = true) →
        (quietEnv.radio (0 + j + 1) = true ↔ ∃ i, i ≤ 21 ∧ quietEnv.radio (0 + i) = true)) :=
  ⟨by decide,
    connect_outcome_by_last_poll quietEnv
      { bootSys [] with globals := { initialGlobals with wifiSSID := "home".toList } }
      (by decide)⟩

/-! ## C13: the number of waits -/

/-- C13 as stated fails: with an empty SSID `connectToWiFi` returns at once, so it makes
no wait at all although the radio never reports a link. -/
theorem connect_empty_ssid_no_wait :
    (bootSys []).globals.wifiSSID = [] ∧ (∀ n, quietEnv.radio n = false) ∧
    (connectToWiFi quietEnv (bootSys [])).map (fun t => (t.delays, t.statusPolls))
      = some ([], 0) :=
  ⟨rfl, fun _ => rfl, by decide⟩

/-- C13 (amended): for every state and every sequence of status reports,
`connectToWiFi` returns after `j ≤ 20` waits of one second and no other wait. With an
empty SSID it makes none. With a non-empty SSID it makes exactly 20 when the radio
reports no link at any poll of the loop, and exactly `m < 20` when the first
active-link report is at the `(m+1)`-th poll of the loop. -/
theorem connect_wait_count (env : Env) (s : Sys) :
    ∃ (s1 : Sys) (j : Nat), connectToWiFi env s = some s1 ∧
      s1.delays = s.delays ++ List.replicate j 1000 ∧ j ≤ 20 ∧
      (s.globals.wifiSSID = [] → j = 0) ∧
      (s.globals.wifiSSID ≠ [] →
        ((∀ i, i ≤ 20 → env.radio (s.statusPolls + i) = false) → j = 20) ∧
        (∀ m, m < 20 → env.radio (s.statusPolls + m) = true →
          (∀ i, i < m → env.radio (s.statusPolls + i) = false) → j = m)) := by
  by_cases hs : s.globals.wifiSSID = []
  · exact ⟨s, 0, by simp [connectToWiFi, hs], by simp, by omega, fun _ => rfl,
      fun h => absurd hs h⟩
  · obtain ⟨s1, j, h1, hj, hfalse, htrue, hdel, -, -⟩ := connectToWiFi_outcome env s hs
    refine ⟨s1, j, h1, hdel, hj, fun h => absurd h hs, fun _ => ⟨?_, ?_⟩⟩
    · intro hnever
      by_contra hne
      have hlt : j < 20 := by omega
      have h := htrue hlt
      rw [hnever j hj] at h
      exact Bool.noConfusion h
    · intro m hm hlink hbefore
      by_contra hne
      rcases Nat.lt_or_gt_of_ne hne with hlt | hgt
      · have h := htrue (by omega)
        rw [hbefore j hlt] at h
        exact Bool.noConfusion h
      · rw [hfalse m hgt] at hlink
        exact Bool.noConfusion hlink

/-! ## Effect of one command on globals and store -/

/-- Every command line falls in one of five cases: nothing but the logs changes; the
five credentials are assigned and saved; the names and the count are replaced; the ids
are replaced; the selection is replaced. -/
theorem handle_effects (env : Env) (st : Sys) (line : Str) :
    ∃ st1, handleBluetoothCommand env st line = some st1 ∧
      ((st1.globals = st.globals ∧ st1.preferences = st.preferences) ∨
        (st1.globals = { st.globals with
            wifiSSID := st1.globals.wifiSSID, wifiPassword := st1.globals.wifiPassword
            deviceUID := st1.globals.deviceUID, supabaseUrl := st1.globals.supabaseUrl
            supabaseKey := st1.globals.supabaseKey } ∧
          st1.preferences =
            putString (putString (putString (putString (putString st.preferences
              "ssid".toList st1.globals.wifiSSID) "password".toList st1.globals.wifiPassword)
              "device_uid".toList st1.globals.deviceUID)
              "supabase_url".toList st1.globals.supabaseUrl)
              "supabase_key".toList st1.globals.supabaseKey) ∨
        (∃ toks : List Str, toks.length ≤ 10 ∧
          st1.globals = { st.globals with
            tankNames := storeTokens st.globals.tankNames 0 toks
            tankCount := (toks.length : Int) } ∧
          st1.preferences = st.preferences) ∨
        (∃ toks : List Str, toks.length ≤ 10 ∧
          st1.globals = { st.globals with
            tankIds := storeTokens st.globals.tankIds 0 toks } ∧
          st1.preferences = st.preferences) ∨
        (∃ x : Str, st1.globals = { st.globals with selectedTankId := x } ∧
          st1.preferences = st.preferences)) := by
  have htake : ∀ l : List Str, (l.take 10).length ≤ 10 := by
    intro l; rw [List.length_take]; omega
  unfold handleBluetoothCommand
  dsimp only
  by_cases h1 : startsWith line "PROVISION:".toList = true
  · rw [if_pos h1]
    split_ifs with hc
    · generalize hX : connectToWiFi env _ = r
      obtain ⟨t, hr, hg, hp, -⟩ := connectToWiFi_cases env _ r hX
      subst hr
      refine ⟨_, rfl, Or.inr (Or.inl ⟨?_, ?_⟩)⟩
      · simp only [btPrintln, hg]
        rfl
      · simp only [btPrintln, hg, hp]
        rfl
    · exact ⟨_, rfl, Or.inl ⟨rfl, rfl⟩⟩
  · rw [if_neg h1]
    by_cases h2 : startsWith line "SET_TANKS:".toList = true
    · rw [if_pos h2, parseTankNames_spec]
      exact ⟨_, rfl, Or.inr (Or.inr (Or.inl ⟨_, htake _, rfl, rfl⟩))⟩
    · rw [if_neg h2]
      by_cases h3 : startsWith line "SET_TANK_IDS:".toList = true
      · rw [if_pos h3, parseTankIds_spec]
        exact ⟨_, rfl, Or.inr (Or.inr (Or.inr (Or.inl ⟨_, htake _, rfl, rfl⟩)))⟩
      · rw [if_neg h3]
        by_cases h4 : startsWith line "SET_NAME:".toList = true
        · rw [if_pos h4]
          exact ⟨_, rfl, Or.inl ⟨rfl, rfl⟩⟩
        · rw [if_neg h4]
          by_cases h5 : startsWith line "SELECT_TANK:".toList = true
          · rw [if_pos h5]
            exact ⟨_, rfl, Or.inr (Or.inr (Or.inr (Or.inr ⟨_, rfl, rfl⟩)))⟩
          · rw [if_neg h5]
            exact ⟨_, rfl, Or.inl ⟨rfl, rfl⟩⟩

/-- A property of the state that every command preserves holds after every sequence of
commands, and the dispatch of a sequence always returns. -/
theorem dispatchAll_invariant (env : Env) (P : Sys → Prop)
    (hstep : ∀ s line s1, P s → handleBluetoothCommand env s line = some s1 → P s1) :
    ∀ (lines : List Str) (s : Sys), P s → ∃ st, dispatchAll env s lines = some st ∧ P st := by
  intro lines
  induction lines with
  | nil => intro s hs; exact ⟨s, rfl, hs⟩
  | cons line rest ih =>
    intro s hs
    obtain ⟨s1, h1, -⟩ := handle_frame env s line
    obtain ⟨st, hst, hP⟩ := ih s1 (hstep s line s1 hs h1)
    exact ⟨st, by simp [dispatchAll, h1, hst], hP⟩

/-! ## C11: what the store holds -/

/-- C11 as stated fails: from the power-up state with an empty store, the accepted
line `PROVISION:a|b|c|d|` stores four non-empty fields and an empty API key, and
`loadWiFiCredentials` returns that partial set. -/
theorem partial_credentials_persisted :
    (dispatchAll quietEnv (bootSys []) ["PROVISION:a|b|c|d|".toList]).map
        (fun t =>
          ((loadWiFiCredentials t).globals.wifiSSID, (loadWiFiCredentials t).globals.wifiPassword,
            (loadWiFiCredentials t).globals.deviceUID, (loadWiFiCredentials t).globals.supabaseUrl,
            (loadWiFiCredentials t).globals.supabaseKey))
      = some ("a".toList, "b".toList, "c".toList, "d".toList, []) := by
  decide

/-- The store holds nothing, or exactly the five credential entries. -/
theorem store_whole_step (st : Store) (a b c d e : Str)
    (h : st = [] ∨ ∃ a0 b0 c0 d0 e0, st =
      [("supabase_key".toList, e0), ("supabase_url".toList, d0), ("device_uid".toList, c0),
        ("password".toList, b0), ("ssid".toList, a0)]) :
    putString (putString (putString (putString (putString st
        "ssid".toList a) "password".toList b) "device_uid".toList c)
        "supabase_url".toList d) "supabase_key".toList e =
      [("supabase_key".toList, e), ("supabase_url".toList, d), ("device_uid".toList, c),
        ("password".toList, b), ("ssid".toList, a)] := by
  rcases h with h | ⟨a0, b0, c0, d0, e0, h⟩
  · subst h
    rfl
  · subst h
    rfl

/-- C11 (amended): in every state reachable from the power-up state with an empty store
by dispatching any finite sequence of command lines, the store holds either none of
the five credential keys, and `loadWiFiCredentials` returns five empty strings, or
exactly the five entries that one accepted `PROVISION:` line stored together, and
`loadWiFiCredentials` returns these five values; a store that holds only some of the
five keys never occurs. Any of the five stored values may be the empty string. -/
theorem stored_credentials_whole (env : Env) (lines : List Str) :
    ∃ st, dispatchAll env (bootSys []) lines = some st ∧
      ((st.preferences = [] ∧
          (loadWiFiCredentials st).globals.wifiSSID = [] ∧
          (loadWiFiCredentials st).globals.wifiPassword = [] ∧
          (loadWiFiCredentials st).globals.deviceUID = [] ∧
          (loadWiFiCredentials st).globals.supabaseUrl = [] ∧
          (loadWiFiCredentials st).globals.supabaseKey = []) ∨
        ∃ a b c d e,
          st.preferences =
            [("supabase_key".toList, e), ("supabase_url".toList, d), ("device_uid".toList, c),
              ("password".toList, b), ("ssid".toList, a)] ∧
          (loadWiFiCredentials st).globals.wifiSSID = a ∧
          (loadWiFiCredentials st).globals.wifiPassword = b ∧
          (loadWiFiCredentials st).globals.deviceUID = c ∧
          (loadWiFiCredentials st).globals.supabaseUrl = d ∧
          (loadWiFiCredentials st).globals.supabaseKey = e) := by
  obtain ⟨st, hst, hP⟩ := dispatchAll_invariant env
    (fun s => s.preferences = [] ∨ ∃ a0 b0 c0 d0 e0, s.preferences =
      [("supabase_key".toList, e0), ("supabase_url".toList, d0), ("device_uid".toList, c0),
        ("password".toList, b0), ("ssid".toList, a0)])
    (by
      intro s line s1 hs h1
      obtain ⟨s2, h2, hcases⟩ := handle_effects env s line
      rw [h1] at h2
      cases h2
      rcases hcases with ⟨-, hp⟩ | ⟨-, hp⟩ | ⟨_, -, -, hp⟩ | ⟨_, -, -, hp⟩ | ⟨_, -, hp⟩
      · rw [hp]; exact hs
      · right
        exact ⟨_, _, _, _, _, hp.trans (store_whole_step s.preferences _ _ _ _ _ hs)⟩
      · rw [hp]; exact hs
      · rw [hp]; exact hs
      · rw [hp]; exact hs)
    lines (bootSys []) (Or.inl rfl)
  refine ⟨st, hst, ?_⟩
  rcases hP with h | ⟨a, b, c, d, e, h⟩
  · left
    simp [h, loadWiFiCredentials, getString, List.lookup]
  · right
    refine ⟨a, b, c, d, e, h, ?_⟩
    simp [h, loadWiFiCredentials, getString, List.lookup]

/-! ## C14: the registry bound -/

/-- C14: from the power-up state over any store, the dispatch of any finite sequence of
command lines returns a state, and in that state `0 ≤ tankCount ≤ 10`. Moreover
`parseTankNames` and `parseTankIds` return a state from every state and on every
payload: a write outside the slots 0..9 would make them return `none`, so that branch
of the array write is never taken. -/
theorem registry_bound (env : Env) (store : Store) (lines : List Str) :
    (∃ st, dispatchAll env (bootSys store) lines = some st ∧
      0 ≤ st.globals.tankCount ∧ st.globals.tankCount ≤ 10) ∧
    ∀ (g : Globals) (payload : Str),
      parseTankNames g payload ≠ none ∧ parseTankIds g payload ≠ none := by
  refine ⟨?_, fun g payload => ⟨by rw [parseTankNames_spec]; simp,
    by rw [parseTankIds_spec]; simp⟩⟩
  refine dispatchAll_invariant env
    (fun s => 0 ≤ s.globals.tankCount ∧ s.globals.tankCount ≤ 10) ?_ lines (bootSys store)
    ⟨by simp [bootSys, initialGlobals], by simp [bootSys, initialGlobals]⟩
  intro s line s1 hs h1
  obtain ⟨s2, h2, hcases⟩ := handle_effects env s line
  rw [h1] at h2
  cases h2
  rcases hcases with ⟨hg, -⟩ | ⟨hg, -⟩ | ⟨toks, hlen, hg, -⟩ | ⟨_, -, hg, -⟩ | ⟨_, hg, -⟩
  · rw [hg]; exact hs
  · rw [hg]; exact hs
  · rw [hg]
    exact ⟨by simp, by simp only []; omega⟩
  · rw [hg]; exact hs
  · rw [hg]; exact hs

/-! ## C15: frame of `SET_TANK_IDS:` -/

/-- C15: for every prior state and every payload, `SET_TANK_IDS:` followed by the
payload returns and changes, among the globals and the store, only the id slots below
`k`, the number of ids accepted (the final `count` of `parseTankIds`): `tankNames`,
`tankCount`, `selectedTankId`, the credentials and the store are unchanged, the id slots
from `k` on keep their values, and the acknowledgement carries the unchanged
`tankCount`. -/
theorem set_tank_ids_frame (env : Env) (st : Sys) (payload : Str) :
    ∃ (st1 : Sys) (g1 : Globals) (k : Nat),
      parseTankIdsCount st.globals payload = some (g1, (k : Int)) ∧ k ≤ 10 ∧
      handleBluetoothCommand env st ("SET_TANK_IDS:".toList ++ payload) = some st1 ∧
      st1.globals = { st.globals with tankIds := st1.globals.tankIds } ∧
      st1.preferences = st.preferences ∧
      (∀ j, k ≤ j → st1.globals.tankIds.1[j]? = st.globals.tankIds.1[j]?) ∧
      st1.serialBT = st.serialBT ++
        [Out.println ("Tank IDs set: ".toList ++ intToString st.globals.tankCount)] := by
  have hk : ((parsedTokens payload).take 10).length ≤ 10 := by
    rw [List.length_take]; omega
  have h1 : handleBluetoothCommand env st ("SET_TANK_IDS:".toList ++ payload) =
      some (btPrintln
        { serialPrintln st ("Received: ".toList ++ ("SET_TANK_IDS:".toList ++ payload)) with
          globals := { st.globals with
            tankIds := storeTokens st.globals.tankIds 0 ((parsedTokens payload).take 10) } }
        ("Tank IDs set: ".toList ++ intToString st.globals.tankCount)) := by
    rw [handle_setTankIds, parseTankIds_spec]
  refine ⟨_, _, ((parsedTokens payload).take 10).length,
    parseTankIdsCount_spec st.globals payload, hk, h1, rfl, rfl, ?_, rfl⟩
  intro j hj
  simp only [btPrintln]
  rw [storeTokens_getElem? _ _ 0 j (by omega)]
  rw [if_neg (by omega)]

/-! ## C17: the two tokenizers agree -/

/-- C17: for every payload and all prior states, `parseTankNames` and `parseTankIds`
both return; if `parseTankNames` sets `tankCount = k` then `parseTankIds` accepts
exactly `k` ids, and for every `i < k` the value in `tankIds[i]` equals the value in
`tankNames[i]`. -/
theorem tokenizers_agree (g g' : Globals) (payload : Str) :
    ∃ (g1 g2 : Globals) (k : Nat),
      parseTankNames g payload = some g1 ∧
      parseTankIdsCount g' payload = some (g2, (k : Int)) ∧
      g1.tankCount = (k : Int) ∧
      ∀ i, i < k → g2.tankIds.1[i]? = g1.tankNames.1[i]? := by
  have hk : ((parsedTokens payload).take 10).length ≤ 10 := by
    rw [List.length_take]; omega
  refine ⟨_, _, ((parsedTokens payload).take 10).length, parseTankNames_spec g payload,
    parseTankIdsCount_spec g' payload, rfl, ?_⟩
  intro i hi
  simp only []
  rw [storeTokens_getElem? _ _ 0 i (by omega), storeTokens_getElem? _ _ 0 i (by omega)]
  rw [if_pos (by omega), if_pos (by omega)]

/-! ## C19: a payload that begins with the delimiter -/

/-- C19: for every payload whose first character is `|`, `parseTankNames` leaves
`tankCount = 1` and `tankNames[0]` equal to the entire payload, the other name slots
keeping their values; `parseTankIds` likewise accepts one id, writes the entire payload
to `tankIds[0]` and leaves the other id slots as they were. -/
theorem leading_delimiter_unsplit (g : Globals) (payload : Str)
    (h : payload.head? = some '|') :
    ∃ (g1 g2 : Globals),
      parseTankNames g payload = some g1 ∧ g1.tankCount = 1 ∧
      g1.tankNames.1[0]? = some payload ∧
      (∀ j, 1 ≤ j → g1.tankNames.1[j]? = g.tankNames.1[j]?) ∧
      parseTankIdsCount g payload = some (g2, 1) ∧
      g2.tankIds.1[0]? = some payload ∧
      (∀ j, 1 ≤ j → g2.tankIds.1[j]? = g.tankIds.1[j]?) := by
  have hp : (parsedTokens payload).take 10 = [payload] := by
    simp [parsedTokens, h]
  have hn := parseTankNames_spec g payload
  have hi := parseTankIdsCount_spec g payload
  rw [hp] at hn hi
  refine ⟨_, _, hn, rfl, ?_, ?_, hi, ?_, ?_⟩
  · simp only []
    rw [storeTokens_getElem? _ _ 0 0 (by simp)]
    simp
  · intro j hj
    simp only []
    rw [storeTokens_getElem? _ _ 0 j (by simp)]
    rw [if_neg (by simp; omega)]
  · simp only []
    rw [storeTokens_getElem? _ _ 0 0 (by simp)]
    simp
  · intro j hj
    simp only []
    rw [storeTokens_getElem? _ _ 0 j (by simp)]
    rw [if_neg (by simp; omega)]

/-- C19 at the payload `|a|b`. -/
theorem leading_delimiter_unsplit_witness :
    "|a|b".toList.head? = some '|' ∧
    ∃ (g1 g2 : Globals),
      parseTankNames initialGlobals "|a|b".toList = some g1 ∧ g1.tankCount = 1 ∧
      g1.tankNames.1[0]? = some "|a|b".toList ∧
      (∀ j, 1 ≤ j → g1.tankNames.1[j]? = initialGlobals.tankNames.1[j]?) ∧
      parseTankIdsCount initialGlobals "|a|b".toList = some (g2, 1) ∧
      g2.tankIds.1[0]? = some "|a|b".toList ∧
      (∀ j, 1 ≤ j → g2.tankIds.1[j]? = initialGlobals.tankIds.1[j]?) :=
  ⟨by decide, leading_delimiter_unsplit initialGlobals "|a|b".toList (by decide)⟩

/-! ## C16: the upload report -/

/-- C16 as stated fails: when the POST answers the HTTP failure status 500, the line
sent to the controller is the `Reading sent:` line. -/
theorem server_error_reported_as_sent :
    (400 ≤ serverErrorEnv.post 0 ∧ serverErrorEnv.post 0 ≤ 599) ∧
    (sendSensorReadings serverErrorEnv (bootSys [])).serialBT
      = [Out.println "Reading sent: T=0.00 pH=0.00 TDS=0.00".toList] := by
  decide

/-- C16 (amended): for every result code of the POST, `sendSensorReadings` issues
exactly one POST and changes neither the globals nor the store; the line sent to the
controller is `Error sending reading to cloud` when the code is a transport failure
(`code ≤ 0`), and a line that begins with `Reading sent: T=` for every code above 0,
the HTTP failure statuses 400..599 included. -/
theorem upload_report (env : Env) (st : Sys) :
    ∃ (req : HttpRequest) (sent : Str),
      (sendSensorReadings env st).posts = st.posts ++ [req] ∧
      (sendSensorReadings env st).globals = st.globals ∧
      (sendSensorReadings env st).preferences = st.preferences ∧
      "Reading sent: T=".toList <+: sent ∧
      (sendSensorReadings env st).serialBT = st.serialBT ++
        [Out.println (if env.post st.posts.length > 0 then sent
          else "Error sending reading to cloud".toList)] := by
  unfold sendSensorReadings
  simp only [readTemperature, readPH, readTDS, analogRead, wifiGetTime, httpPost]
  split_ifs with hcode
  · exact ⟨_, _, rfl, rfl, rfl, ⟨_, by simp only [List.append_assoc]; rfl⟩, rfl⟩
  · exact ⟨_, "Reading sent: T=".toList, rfl, rfl, rfl, List.prefix_refl _, rfl⟩

/-! ## C18: every line with four delimiters is accepted -/

/-- C18: for every payload with at least four `|`, the line `PROVISION:` followed by the
payload is accepted (the five fields are stored and the acknowledgement is the last
line sent to the controller), the five fields joined by `|` give back the payload
exactly, and the first four fields contain no `|`. -/
theorem provision_splits_payload (env : Env) (st : Sys) (payload : Str)
    (h : 4 ≤ payload.count '|') :
    ∃ st1, handleBluetoothCommand env st ("PROVISION:".toList ++ payload) = some st1 ∧
      st1.globals.wifiSSID ++ "|".toList ++ st1.globals.wifiPassword ++ "|".toList
          ++ st1.globals.deviceUID ++ "|".toList ++ st1.globals.supabaseUrl ++ "|".toList
          ++ st1.globals.supabaseKey = payload ∧
      ('|' ∉ st1.globals.wifiSSID ∧ '|' ∉ st1.globals.wifiPassword ∧
        '|' ∉ st1.globals.deviceUID ∧ '|' ∉ st1.globals.supabaseUrl) ∧
      (st1.preferences.lookup "ssid".toList = some st1.globals.wifiSSID ∧
        st1.preferences.lookup "password".toList = some st1.globals.wifiPassword ∧
        st1.preferences.lookup "device_uid".toList = some st1.globals.deviceUID ∧
        st1.preferences.lookup "supabase_url".toList = some st1.globals.supabaseUrl ∧
        st1.preferences.lookup "supabase_key".toList = some st1.globals.supabaseKey) ∧
      st1.serialBT.getLast? =
        some (Out.println "WiFi and Supabase credentials received. Connecting...".toList) := by
  have hcount : 4 ≤ ("PROVISION:".toList ++ payload).count '|' := by
    rw [List.count_append]; omega
  obtain ⟨a, b, c, d, e, hline, ha, hb, hc, hd⟩ :=
    provision_fields ("PROVISION:".toList ++ payload) (List.prefix_append _ _) hcount
  have hpay : payload = a ++ '|' :: (b ++ '|' :: (c ++ '|' :: (d ++ '|' :: e))) :=
    List.append_cancel_left hline
  rw [hline, handle_provision env st a b c d e ha hb hc hd]
  generalize hX : connectToWiFi env _ = r
  obtain ⟨t, hr, hg, hp, -⟩ := connectToWiFi_cases env _ r hX
  subst hr
  have hlk := lookup_saved
    { serialPrintln st ("Received: ".toList ++
        ("PROVISION:".toList ++ (a ++ '|' :: (b ++ '|' :: (c ++ '|' :: (d ++ '|' :: e)))))) with
      globals := { st.globals with
        wifiSSID := a, wifiPassword := b, deviceUID := c, supabaseUrl := d, supabaseKey := e } }
  dsimp only at hlk
  have hg' : t.globals = { st.globals with
      wifiSSID := a, wifiPassword := b, deviceUID := c, supabaseUrl := d, supabaseKey := e } :=
    hg
  refine ⟨_, rfl, ?_, ?_, ?_, ?_⟩
  · simp only [btPrintln, hg']
    rw [hpay]
    simp
  · simp only [btPrintln, hg']
    exact ⟨ha, hb, hc, hd⟩
  · simp only [btPrintln, hg', hp]
    exact hlk
  · simp [btPrintln]

/-- C18 at the payload `a|b|c|d|e|f`, which holds five delimiters. -/
theorem provision_splits_payload_witness :
    4 ≤ "a|b|c|d|e|f".toList.count '|' ∧
    ∃ st1, handleBluetoothCommand quietEnv (bootSys [])
        ("PROVISION:".toList ++ "a|b|c|d|e|f".toList) = some st1 ∧
      st1.globals.wifiSSID ++ "|".toList ++ st1.globals.wifiPassword ++ "|".toList
          ++ st1.globals.deviceUID ++ "|".toList ++ st1.globals.supabaseUrl ++ "|".toList
          ++ st1.globals.supabaseKey = "a|b|c|d|e|f".toList ∧
      ('|' ∉ st1.globals.wifiSSID ∧ '|' ∉ st1.globals.wifiPassword ∧
        '|' ∉ st1.globals.deviceUID ∧ '|' ∉ st1.globals.supabaseUrl) ∧
      (st1.preferences.lookup "ssid".toList = some st1.globals.wifiSSID ∧
        st1.preferences.lookup "password".toList = some st1.globals.wifiPassword ∧
        st1.preferences.lookup "device_uid".toList = some st1.globals.deviceUID ∧
        st1.preferences.lookup "supabase_url".toList = some st1.globals.supabaseUrl ∧
        st1.preferences.lookup "supabase_key".toList = some st1.globals.supabaseKey) ∧
      st1.serialBT.getLast? =
        some (Out.println "WiFi and Supabase credentials received. Connecting...".toList) :=
  ⟨by decide, provision_splits_payload quietEnv (bootSys []) "a|b|c|d|e|f".toList (by decide)⟩

end RotalaLink
